import Mathlib

/-!
Verification of the Tents puzzle solver (line enumerator, propagation
driver, divide and conquer decomposition, and backtracking search).

The definitions below are shallow embeddings of the Python sources:
`solver_utils.py`, `tents.py`, `smart_bot.py` and `back_bot.py`.
Grids are lists of lists of naturals, machine integers become `Nat`
or `Int`, and in-place mutation becomes explicit state passing.
-/

namespace Tents

/-- Cell alphabet, from `tents.py`: EMPTY = 0. -/
def EMPTY : Nat := 0

/-- TREE = 1. -/
def TREE : Nat := 1

/-- TENT = 2. -/
def TENT : Nat := 2

/-- GRASS = 3. -/
def GRASS : Nat := 3

/-- The half-open range [a, b) as a list, used for the clipped
neighbour boxes (`range(max(0, r-1), min(size, r+2))` in the sources;
`Nat` subtraction already truncates at zero). -/
def rangeFromTo (a b : Nat) : List Nat := List.range' a (b - a)

/-- A board is a list of rows, each a list of cell values. -/
abbrev Board := List (List Nat)

/-- Read `grid[r][c]`, defaulting to 0 out of bounds. -/
def getCell (b : Board) (r c : Nat) : Nat := (b.getD r []).getD c 0

/-- Write `grid[r][c] = v` (no-op out of bounds, like `List.set`). -/
def setCell (b : Board) (r c v : Nat) : Board :=
  b.set r ((b.getD r []).set c v)

/-- The in-bounds 8-neighbour box of (r, c) excluding the centre, in
row-major order.  This is exactly the cell sequence visited by the
`for i in range(max(0, r-1), min(size, r+2))` double loops of
`tents.py` and the `for dr in range(-1, 2)` double loops (with bounds
checks) of `back_bot.py`. -/
def boxCells (size r c : Nat) : List (Nat × Nat) :=
  (rangeFromTo (r - 1) (min size (r + 2))).flatMap fun nr =>
    (rangeFromTo (c - 1) (min size (c + 2))).filterMap fun nc =>
      if nr = r ∧ nc = c then none else some (nr, nc)

/-- Embedding of `TentsGame._get_orthogonal_neighbors`: N, S, W, E neighbours that
are in bounds, in that order. -/
def orthNeighbors (size r c : Nat) : List (Nat × Nat) :=
  ([(-1, 0), (1, 0), (0, -1), (0, 1)] : List (Int × Int)).filterMap fun d =>
    let nr : Int := (r : Int) + d.1
    let nc : Int := (c : Int) + d.2
    if 0 ≤ nr ∧ nr < (size : Int) ∧ 0 ≤ nc ∧ nc < (size : Int) then
      some (nr.toNat, nc.toNat)
    else none

/-! ## Line enumerator (`solver_utils.solve_line_dp`) -/
/-- Number of TREE cells in a list (the `suffix_trees` counts). -/
def countTrees (l : List Nat) : Nat := l.countP (fun x => x == TREE)

/-- Number of TENT cells in a list. -/
def countTent (l : List Nat) : Nat := l.countP (fun x => x == TENT)

/-- The recursive enumeration `_recurse(index, placed, last_was_tent)`
of `solve_line_dp`, carrying the remaining slice of the line
explicitly.  The memoisation of the source is a pure cache and does
not change the returned value, so it is not modelled. -/
def lineRec (target : Nat) (fixed : List Nat) :
    Nat → Nat → Bool → List Nat → List (List Nat)
  | _, placed, _, [] => if placed == target then [[]] else []
  | i, placed, lastTent, v :: rest =>
    if v == TREE then
      (lineRec target fixed (i + 1) placed false rest).map (fun s => TREE :: s)
    else if target < placed then []
    else if placed + (rest.length + 1 - countTrees (v :: rest)) < target then []
    else if fixed.contains i && v == TENT then
      if lastTent then []
      else (lineRec target fixed (i + 1) (placed + 1) true rest).map
        (fun s => TENT :: s)
    else if fixed.contains i && v == GRASS then
      (lineRec target fixed (i + 1) placed false rest).map (fun s => GRASS :: s)
    else
      (if lastTent then []
       else (lineRec target fixed (i + 1) (placed + 1) true rest).map
         (fun s => TENT :: s))
      ++ (lineRec target fixed (i + 1) placed false rest).map (fun s => GRASS :: s)

/-- Embedding of `solver_utils.solve_line_dp(length, target_count, current_line,
fixed_positions)`.  The fixed positions are a set of indices, embedded
as a list queried only by membership.  The source indexes
`current_line[0 .. length)`, hence the `take`. -/
def solve_line_dp (length target : Nat) (line fixed : List Nat) :
    List (List Nat) :=
  lineRec target fixed 0 0 false (line.take length)

/-- Embedding of `solver_utils.find_forced_moves(valid_configs)`: the dictionary of
forced indices, embedded as an association list in index order (the
insertion order of the source dictionary). -/
def find_forced_moves (valid_configs : List (List Nat)) : List (Nat × Nat) :=
  match valid_configs with
  | [] => []
  | cfg₀ :: _ =>
    (List.range cfg₀.length).filterMap fun i =>
      let v := cfg₀.getD i 0
      if valid_configs.all (fun cfg => cfg.getD i 0 == v) then
        if v == TENT || v == GRASS then some (i, v) else none
      else none

/-- Within-line adjacency check for a completion suffix: `last` is
whether the previous cell was a tent; no two TENT values may be
adjacent. -/
def noAdjTentFrom : Bool → List Nat → Bool
  | _, [] => true
  | last, x :: xs => (!(last && (x == TENT))) && noAdjTentFrom (x == TENT) xs

/-- How `solve_line_dp` constrains one cell: a TREE is copied, a fixed
index holding TENT or GRASS keeps its value, and every other cell
becomes TENT or GRASS. -/
def cellOkB (fixed : List Nat) (i v w : Nat) : Bool :=
  if v == TREE then w == TREE
  else if fixed.contains i && (v == TENT || v == GRASS) then w == v
  else w == TENT || w == GRASS

/-- Pointwise `cellOkB` between a line suffix starting at index `i`
and a candidate completion suffix (false on length mismatch). -/
def cellsOkB (fixed : List Nat) : Nat → List Nat → List Nat → Bool
  | _, [], [] => true
  | i, v :: vs, w :: ws => cellOkB fixed i v w && cellsOkB fixed (i + 1) vs ws
  | _, _, _ => false

/-- The spec's notion of a valid completion of a line slice: right
length; exactly `target` tents; no two tents adjacent within the line;
TREE positions copied through; fixed indices retain their original
value; every other index is TENT or GRASS. -/
def isValidCompletionB (target : Nat) (line fixed : List Nat) (cfg : List Nat) : Bool :=
  (cfg.length == line.length) &&
  (countTent cfg == target) &&
  noAdjTentFrom false cfg &&
  (List.range line.length).all (fun i =>
    if line.getD i 0 == TREE then cfg.getD i 0 == TREE
    else if fixed.contains i then cfg.getD i 0 == line.getD i 0
    else cfg.getD i 0 == TENT || cfg.getD i 0 == GRASS)

/-- A board is well-formed for `size` when it is a `size × size` array. -/
def boardWF (size : Nat) (b : Board) : Prop :=
  b.length = size ∧ ∀ row ∈ b, row.length = size

/-- The `TentsGame` state of `tents.py`: a solution grid, the player's
grid, the row/column constraint vectors and the tree list. -/
structure TGame where
  size : Nat
  solution_grid : Board
  player_grid : Board
  row_constraints : List Nat
  col_constraints : List Nat
  trees : List (Nat × Nat)
deriving Repr, DecidableEq

/-- Number of TENT cells in column `c` of the player grid
(`sum(1 for i in range(size) if player_grid[i][c] == TENT)`). -/
def colTentCount (g : TGame) (c : Nat) : Nat :=
  (List.range g.size).countP (fun i => getCell g.player_grid i c == TENT)

/-- The no-touching scan of `is_move_legal`: any TENT in the clipped
8-neighbour box around (r, c). -/
def hasAdjacentTent (g : TGame) (r c : Nat) : Bool :=
  (boxCells g.size r c).any (fun p => getCell g.player_grid p.1 p.2 == TENT)

/-- Embedding of `TentsGame.is_move_legal(r, c, move_type)`. -/
def is_move_legal (g : TGame) (r c move_type : Nat) : Bool :=
  if ¬(r < g.size ∧ c < g.size) then false
  else if getCell g.player_grid r c == TREE then false
  else if move_type == TENT then
    if hasAdjacentTent g r c then false
    else if g.row_constraints.getD r 0 <
        (g.player_grid.getD r []).countP (fun x => x == TENT) + 1 then false
    else if g.col_constraints.getD c 0 < colTentCount g c + 1 then false
    else true
  else true

/-- Embedding of `TentsGame.make_move(r, c, move_type)`: applies the move if legal;
returns the success flag and the (possibly mutated) game. -/
def make_move (g : TGame) (r c move_type : Nat) : Bool × TGame :=
  if is_move_legal g r c move_type then
    (true, { g with player_grid := setCell g.player_grid r c move_type })
  else (false, g)

/-- Concrete game used to instantiate the C10 theorem: 2x2, tree at
(0,0), target cell (0,1) a legal TENT. -/
def c10Game : TGame :=
  ⟨2, [[0, 0], [0, 0]], [[1, 0], [0, 0]], [1, 1], [1, 1], [(0, 0)]⟩

/-- All cells of a `size × size` board in row-major order. -/
def rowMajorCells (size : Nat) : List (Nat × Nat) :=
  (List.range size).flatMap fun r => (List.range size).map fun c => (r, c)

/-- Number of EMPTY cells on the player grid. -/
def countEmptyCells (g : TGame) : Nat :=
  (rowMajorCells g.size).countP
    (fun p => getCell g.player_grid p.1 p.2 == EMPTY)

/-- One forced write into row `r` (the body of the
`for c, val in forced.items()` loop of `solver_utils`). -/
def forcedWriteRow (r : Nat) (acc : TGame × Bool) (cv : Nat × Nat) :
    TGame × Bool :=
  if getCell acc.1.player_grid r cv.1 == EMPTY then
    ({ acc.1 with player_grid := setCell acc.1.player_grid r cv.1 cv.2 }, true)
  else acc

/-- One forced write into column `c`. -/
def forcedWriteCol (c : Nat) (acc : TGame × Bool) (rv : Nat × Nat) :
    TGame × Bool :=
  if getCell acc.1.player_grid rv.1 c == EMPTY then
    ({ acc.1 with player_grid := setCell acc.1.player_grid rv.1 c rv.2 }, true)
  else acc

/-- Run the line DP on row `r` and apply every forced move found
(the row body shared by `_apply_dp_to_lines` and `solve_with_dnc`).
Returns the updated game and whether any cell changed. -/
def applyForcedRow (g : TGame) (r : Nat) : TGame × Bool :=
  let row := g.player_grid.getD r []
  let fixed := (List.range g.size).filter
    (fun c => row.getD c 0 == TENT || row.getD c 0 == GRASS)
  let target := g.row_constraints.getD r 0
  let configs := solve_line_dp g.size target row fixed
  if configs.isEmpty then (g, false)
  else (find_forced_moves configs).foldl (forcedWriteRow r) (g, false)

/-- Run the line DP on column `c` and apply every forced move found. -/
def applyForcedCol (g : TGame) (c : Nat) : TGame × Bool :=
  let col := (List.range g.size).map (fun r => getCell g.player_grid r c)
  let fixed := (List.range g.size).filter
    (fun r => col.getD r 0 == TENT || col.getD r 0 == GRASS)
  let target := g.col_constraints.getD c 0
  let configs := solve_line_dp g.size target col fixed
  if configs.isEmpty then (g, false)
  else (find_forced_moves configs).foldl (forcedWriteCol c) (g, false)

/-- One row iteration of a DP pass, accumulating the progress flag. -/
def dpRowStep (acc : TGame × Bool) (r : Nat) : TGame × Bool :=
  let res := applyForcedRow acc.1 r
  (res.1, acc.2 || res.2)

/-- One column iteration of a DP pass. -/
def dpColStep (acc : TGame × Bool) (c : Nat) : TGame × Bool :=
  let res := applyForcedCol acc.1 c
  (res.1, acc.2 || res.2)

/-- DP over the given rows, then the given columns, accumulating the
progress flag. -/
def applyRowsThenCols (g : TGame) (rows cols : List Nat) : TGame × Bool :=
  cols.foldl dpColStep (rows.foldl dpRowStep (g, false))

/-- Embedding of `solver_utils._apply_dp_to_lines`: DP on every row and column. -/
def apply_dp_to_lines (g : TGame) : TGame × Bool :=
  applyRowsThenCols g (List.range g.size) (List.range g.size)

/-- The rows a component touches (a Python set, iterated here in
increasing order). -/
def compRows (g : TGame) (comp : List (Nat × Nat)) : List Nat :=
  (List.range g.size).filter (fun r => comp.any (fun p => p.1 == r))

/-- The columns a component touches. -/
def compCols (g : TGame) (comp : List (Nat × Nat)) : List Nat :=
  (List.range g.size).filter (fun r => comp.any (fun p => p.2 == r))

/-- Processing of one connected component inside `solve_with_dnc`:
DP restricted to the rows and columns the component touches. -/
def applyDpToComponent (g : TGame) (comp : List (Nat × Nat)) : TGame × Bool :=
  applyRowsThenCols g (compRows g comp) (compCols g comp)

/-- The EMPTY cells of the player grid in row-major order (the node
insertion order of `build_constraint_graph`). -/
def emptyCellsRM (g : TGame) : List (Nat × Nat) :=
  (List.range g.size).flatMap fun r =>
    (List.range g.size).filterMap fun c =>
      if getCell g.player_grid r c == EMPTY then some (r, c) else none

/-- Embedding of `solver_utils.build_constraint_graph`: adjacency list over EMPTY
cells, connecting 8-way neighbours that are also EMPTY. -/
def build_constraint_graph (g : TGame) :
    List ((Nat × Nat) × List (Nat × Nat)) :=
  let nodes := emptyCellsRM g
  nodes.map fun p =>
    (p, (boxCells g.size p.1 p.2).filter (fun q => nodes.contains q))

/-- Adjacency lookup `graph[current]`. -/
def graphNeighbors (graph : List ((Nat × Nat) × List (Nat × Nat)))
    (p : Nat × Nat) : List (Nat × Nat) :=
  match graph.find? (fun e => e.1 == p) with
  | some e => e.2
  | none => []

/-- The BFS loop of `find_connected_components` (fuel-bounded; the
fuel never runs out when it is at least the number of graph nodes,
since every node is enqueued at most once). State: queue, visited,
component collected so far. -/
def bfsAux (graph : List ((Nat × Nat) × List (Nat × Nat))) :
    Nat → List (Nat × Nat) → List (Nat × Nat) → List (Nat × Nat) →
      List (Nat × Nat) × List (Nat × Nat)
  | 0, _, visited, component => (component, visited)
  | fuel + 1, queue, visited, component =>
    match queue with
    | [] => (component, visited)
    | cur :: rest =>
      let step := (graphNeighbors graph cur).foldl
        (fun (acc : List (Nat × Nat) × List (Nat × Nat)) nb =>
          if acc.2.contains nb then acc else (acc.1 ++ [nb], acc.2 ++ [nb]))
        (rest, visited)
      bfsAux graph fuel step.1 step.2 (component ++ [cur])

/-- Embedding of `solver_utils.find_connected_components`: BFS from every
unvisited node, in dictionary (row-major) order. -/
def find_connected_components
    (graph : List ((Nat × Nat) × List (Nat × Nat))) :
    List (List (Nat × Nat)) :=
  ((graph.map Prod.fst).foldl
    (fun (acc : List (List (Nat × Nat)) × List (Nat × Nat)) node =>
      if acc.2.contains node then acc
      else
        let res := bfsAux graph (graph.length + 1) [node]
          (acc.2 ++ [node]) []
        (acc.1 ++ [res.1], res.2))
    ([], [])).1

/-- Embedding of `solver_utils.solve_with_dnc`. -/
def solve_with_dnc (g : TGame) : TGame × Bool :=
  let graph := build_constraint_graph g
  if graph.isEmpty then (g, false)
  else
    let comps := find_connected_components graph
    if comps.length ≤ 1 then apply_dp_to_lines g
    else
      comps.foldl
        (fun acc comp =>
          let res := applyDpToComponent acc.1 comp
          (res.1, acc.2 || res.2)) (g, false)

/-- Game exhibiting the C5 counterexample: two singleton components
(0,0) and (0,4) sharing row 0, whose row target forces both cells. -/
def c5Game : TGame :=
  ⟨5,
   List.replicate 5 (List.replicate 5 0),
   [[0, 3, 3, 3, 0],
    [1, 3, 3, 3, 1],
    [3, 3, 3, 3, 3],
    [3, 3, 3, 3, 3],
    [3, 3, 3, 3, 3]],
   [2, 0, 0, 0, 0],
   [1, 0, 0, 0, 1],
   [(1, 0), (1, 4)]⟩

/-- Game of the C6 scenario: 5x5, column 2 entirely GRASS, row
targets [0,1,0,1,0], column targets [1,0,0,0,1]. -/
def c6Game : TGame :=
  ⟨5,
   List.replicate 5 (List.replicate 5 0),
   [[0, 0, 3, 0, 0],
    [0, 0, 3, 0, 0],
    [0, 0, 3, 0, 0],
    [0, 0, 3, 0, 0],
    [0, 0, 3, 0, 0]],
   [0, 1, 0, 1, 0],
   [1, 0, 0, 0, 1],
   []⟩

/-- Embedding of `BackBot._is_placement_safe`: no TENT in the 8-neighbour box. -/
def is_placement_safe (size : Nat) (b : Board) (r c : Nat) : Bool :=
  (boxCells size r c).all (fun p => !(getCell b p.1 p.2 == TENT))

/-- The neighbour loop of `_mark_neighbors_grass`: grass every EMPTY
cell in the list, recording the changed cells in visit order. -/
def markAux : List (Nat × Nat) → Board → Board × List (Nat × Nat)
  | [], b => (b, [])
  | p :: ps, b =>
    if getCell b p.1 p.2 == EMPTY then
      let res := markAux ps (setCell b p.1 p.2 GRASS)
      (res.1, p :: res.2)
    else markAux ps b

/-- Embedding of `BackBot._mark_neighbors_grass`. -/
def mark_neighbors_grass (size : Nat) (b : Board) (r c : Nat) :
    Board × List (Nat × Nat) :=
  markAux (boxCells size r c) b

/-- Embedding of `BackBot._restore_neighbors`. -/
def restore_neighbors (b : Board) (g : List (Nat × Nat)) : Board :=
  g.foldl (fun b p => setCell b p.1 p.2 EMPTY) b

/-- Embedding of `BackBot._get_domain_size`: legally available spots for a tree's
tent (EMPTY, row and column budget positive, placement safe). -/
def get_domain_size (size : Nat) (b : Board) (rr cr : List Int)
    (t : Nat × Nat) : Nat :=
  ((orthNeighbors size t.1 t.2).filter (fun p =>
    (getCell b p.1 p.2 == EMPTY) &&
    (decide (0 < rr.getD p.1 0) && decide (0 < cr.getD p.2 0)) &&
    is_placement_safe size b p.1 p.2)).length

/-- The MRV scan of `_solve_recursive`: walk the remaining trees in
order; a zero domain is an immediate dead end (`none`); otherwise
return the first tree attaining the minimum domain. -/
def mrvAux (size : Nat) (b : Board) (rr cr : List Int) :
    List (Nat × Nat) → Option (Nat × Nat) → Nat → Option (Nat × Nat)
  | [], best, _ => best
  | t :: rest, best, bestD =>
    let ds := get_domain_size size b rr cr t
    if ds == 0 then none
    else if ds < bestD then mrvAux size b rr cr rest (some t) ds
    else mrvAux size b rr cr rest best bestD

/-- MRV selection over the remaining trees (initial best domain 5). -/
def selectMRV (size : Nat) (b : Board) (rr cr : List Int)
    (trees : List (Nat × Nat)) : Option (Nat × Nat) :=
  mrvAux size b rr cr trees none 5

/-- The `for nr, nc in neighbours` loop of `_solve_recursive`:
try each candidate cell in order; on a failed branch restore the
grassed neighbours, the tent cell and both budgets, then continue. -/
def tryNeighborsAux (size : Nat)
    (recur : Board → List Int → List Int →
      Bool × Board × List Int × List Int) :
    List (Nat × Nat) → Board → List Int → List Int →
      Bool × Board × List Int × List Int
  | [], b, rr, cr => (false, b, rr, cr)
  | p :: rest, b, rr, cr =>
    if getCell b p.1 p.2 == EMPTY then
      if is_placement_safe size b p.1 p.2 then
        if 0 < rr.getD p.1 0 ∧ 0 < cr.getD p.2 0 then
          let b₂ := setCell b p.1 p.2 TENT
          let rr₂ := rr.set p.1 (rr.getD p.1 0 - 1)
          let cr₂ := cr.set p.2 (cr.getD p.2 0 - 1)
          let mk := mark_neighbors_grass size b₂ p.1 p.2
          let res := recur mk.1 rr₂ cr₂
          if res.1 then res
          else
            tryNeighborsAux size recur rest
              (setCell (restore_neighbors res.2.1 mk.2) p.1 p.2 EMPTY)
              ((res.2.2.1).set p.1 ((res.2.2.1).getD p.1 0 + 1))
              ((res.2.2.2).set p.2 ((res.2.2.2).getD p.2 0 + 1))
        else tryNeighborsAux size recur rest b rr cr
      else tryNeighborsAux size recur rest b rr cr
    else tryNeighborsAux size recur rest b rr cr

/-- Embedding of `BackBot._solve_recursive`, fuel-bounded (the fuel never runs out
when it is at least the number of remaining trees, since each level
removes the selected tree from the list). -/
def solveRec (size : Nat) :
    Nat → List (Nat × Nat) → Board → List Int → List Int →
      Bool × Board × List Int × List Int
  | _, [], b, rr, cr =>
    ((rr.all (fun v => v == 0) && cr.all (fun v => v == 0)), b, rr, cr)
  | fuel, t :: ts, b, rr, cr =>
    match selectMRV size b rr cr (t :: ts) with
    | none => (false, b, rr, cr)
    | some best =>
      match fuel with
      | 0 => (false, b, rr, cr)
      | fuel' + 1 =>
        tryNeighborsAux size
          (fun b' rr' cr' =>
            solveRec size fuel' ((t :: ts).filter (fun x => x != best)) b' rr' cr')
          (orthNeighbors size best.1 best.2) b rr cr

/-- The no-two-adjacent-tents invariant of the spec's Grid. -/
def noAdjacentTents (size : Nat) (b : Board) : Prop :=
  ∀ r, r < size → ∀ c, c < size → getCell b r c = TENT →
    ∀ p ∈ boxCells size r c, getCell b p.1 p.2 ≠ TENT

/-- Number of TENT cells in row `r` (over the `size` columns). -/
def rowTents (size : Nat) (b : Board) (r : Nat) : Nat :=
  (List.range size).countP (fun c => getCell b r c == TENT)

/-- Number of TENT cells in column `c`. -/
def colTents (size : Nat) (b : Board) (c : Nat) : Nat :=
  (List.range size).countP (fun r => getCell b r c == TENT)

/-- The budget invariant of `_solve_recursive`: every budget equals
its target minus the current tent count and is non-negative (hence
every tent count is at most its target), combined with the
no-adjacent-tents invariant. -/
def tentInv (size : Nat) (rowT colT : List Int) (b : Board)
    (rr cr : List Int) : Prop :=
  noAdjacentTents size b ∧
  rr.length = size ∧ cr.length = size ∧
  (∀ r, r < size →
    rr.getD r 0 + (rowTents size b r : Int) = rowT.getD r 0 ∧
    0 ≤ rr.getD r 0) ∧
  (∀ c, c < size →
    cr.getD c 0 + (colTents size b c : Int) = colT.getD c 0 ∧
    0 ≤ cr.getD c 0)

/-! ## SmartBot (`smart_bot.py`): the six greedy heuristics and the
row/column DP fallback, threading the `cells_scanned` counter. -/
/-- Heuristic 1 inner loop: scan the 8-neighbour box of a tent for
the first EMPTY cell (each visited cell counts one scan). -/
def h1Box (g : TGame) : List (Nat × Nat) → Nat →
    Option (Nat × Nat × Nat) × Nat
  | [], s => (none, s)
  | q :: qs, s =>
    if getCell g.player_grid q.1 q.2 == EMPTY then
      (some (q.1, q.2, GRASS), s + 1)
    else h1Box g qs (s + 1)

/-- Heuristic 1 (adjacency exclusion): the first EMPTY neighbour of a
TENT becomes GRASS. -/
def h1Cells (g : TGame) : List (Nat × Nat) → Nat →
    Option (Nat × Nat × Nat) × Nat
  | [], s => (none, s)
  | p :: ps, s =>
    if getCell g.player_grid p.1 p.2 == TENT then
      match h1Box g (boxCells g.size p.1 p.2) (s + 1) with
      | (some m, s') => (some m, s')
      | (none, s') => h1Cells g ps s'
    else h1Cells g ps (s + 1)

/-- Row-saturation inner loop: first EMPTY cell of the row. -/
def h2RowInner (g : TGame) (r : Nat) : List Nat → Nat →
    Option (Nat × Nat × Nat) × Nat
  | [], s => (none, s)
  | c :: cs, s =>
    if getCell g.player_grid r c == EMPTY then (some (r, c, GRASS), s + 1)
    else h2RowInner g r cs (s + 1)

/-- Heuristic 2 on rows (row already has `target` tents → rest is
GRASS). -/
def h2Rows (g : TGame) : List Nat → Nat → Option (Nat × Nat × Nat) × Nat
  | [], s => (none, s)
  | r :: rs, s =>
    if (g.player_grid.getD r []).countP (fun x => x == TENT) ==
        g.row_constraints.getD r 0 then
      match h2RowInner g r (List.range g.size) (s + 1) with
      | (some m, s') => (some m, s')
      | (none, s') => h2Rows g rs s'
    else h2Rows g rs (s + 1)

/-- Column-saturation inner loop: first EMPTY cell of the column. -/
def h2ColInner (g : TGame) (c : Nat) : List Nat → Nat →
    Option (Nat × Nat × Nat) × Nat
  | [], s => (none, s)
  | r :: rs, s =>
    if getCell g.player_grid r c == EMPTY then (some (r, c, GRASS), s + 1)
    else h2ColInner g c rs (s + 1)

/-- Heuristic 2 on columns. -/
def h2Cols (g : TGame) : List Nat → Nat → Option (Nat × Nat × Nat) × Nat
  | [], s => (none, s)
  | c :: cs, s =>
    if colTentCount g c == g.col_constraints.getD c 0 then
      match h2ColInner g c (List.range g.size) (s + 1) with
      | (some m, s') => (some m, s')
      | (none, s') => h2Cols g cs s'
    else h2Cols g cs (s + 1)

/-- Heuristic 3 on rows (tents + empties equals the target → every
EMPTY becomes TENT; the first one is returned). -/
def h3Rows (g : TGame) : List Nat → Nat → Option (Nat × Nat × Nat) × Nat
  | [], s => (none, s)
  | r :: rs, s =>
    let s' := s + 1 + g.size
    let tents := (List.range g.size).countP
      (fun c => getCell g.player_grid r c == TENT)
    let empties := (List.range g.size).filter
      (fun c => getCell g.player_grid r c == EMPTY)
    if tents + empties.length == g.row_constraints.getD r 0 &&
        !empties.isEmpty then
      (some (r, empties.headD 0, TENT), s')
    else h3Rows g rs s'

/-- Heuristic 3 on columns. -/
def h3Cols (g : TGame) : List Nat → Nat → Option (Nat × Nat × Nat) × Nat
  | [], s => (none, s)
  | c :: cs, s =>
    let s' := s + 1 + g.size
    let tents := (List.range g.size).countP
      (fun r => getCell g.player_grid r c == TENT)
    let empties := (List.range g.size).filter
      (fun r => getCell g.player_grid r c == EMPTY)
    if tents + empties.length == g.col_constraints.getD c 0 &&
        !empties.isEmpty then
      (some (empties.headD 0, c, TENT), s')
    else h3Cols g cs s'

/-- Heuristic 4 neighbour scan: walk a tree's orthogonal neighbours
counting scans, stopping at the first TENT, collecting EMPTY cells. -/
def h4Scan (g : TGame) : List (Nat × Nat) → Nat →
    (Bool × List (Nat × Nat)) × Nat
  | [], s => ((false, []), s)
  | n :: ns, s =>
    let v := getCell g.player_grid n.1 n.2
    if v == TENT then ((true, []), s + 1)
    else if v == EMPTY then
      match h4Scan g ns (s + 1) with
      | ((ht, es), s') => ((ht, n :: es), s')
    else h4Scan g ns (s + 1)

/-- Heuristic 4 (isolated tree): a TREE with no adjacent TENT and
exactly one EMPTY neighbour forces a TENT there. -/
def h4Cells (g : TGame) : List (Nat × Nat) → Nat →
    Option (Nat × Nat × Nat) × Nat
  | [], s => (none, s)
  | p :: ps, s =>
    if getCell g.player_grid p.1 p.2 == TREE then
      match h4Scan g (orthNeighbors g.size p.1 p.2) (s + 1) with
      | ((ht, es), s') =>
        if !ht && es.length == 1 then
          (some ((es.headD (0, 0)).1, (es.headD (0, 0)).2, TENT), s')
        else h4Cells g ps s'
    else h4Cells g ps (s + 1)

/-- Heuristic 5 neighbour scan: stop at the first TREE. -/
def h5Scan (g : TGame) : List (Nat × Nat) → Nat → Bool × Nat
  | [], s => (false, s)
  | n :: ns, s =>
    if getCell g.player_grid n.1 n.2 == TREE then (true, s + 1)
    else h5Scan g ns (s + 1)

/-- Heuristic 5 (no-man's land): an EMPTY cell with no orthogonal
TREE becomes GRASS. -/
def h5Cells (g : TGame) : List (Nat × Nat) → Nat →
    Option (Nat × Nat × Nat) × Nat
  | [], s => (none, s)
  | p :: ps, s =>
    if getCell g.player_grid p.1 p.2 == EMPTY then
      match h5Scan g (orthNeighbors g.size p.1 p.2) (s + 1) with
      | (ht, s') =>
        if !ht then (some (p.1, p.2, GRASS), s')
        else h5Cells g ps s'
    else h5Cells g ps (s + 1)

/-- The trees locked to row `r` (no adjacent tent; at least one legal
spot; every legal spot inside row `r`). -/
def lockedTreesRow (g : TGame) (r : Nat) : List (Nat × Nat) :=
  g.trees.filter fun t =>
    let ns := orthNeighbors g.size t.1 t.2
    let spots := ns.filter (fun n => getCell g.player_grid n.1 n.2 == EMPTY)
    !(ns.any (fun n => getCell g.player_grid n.1 n.2 == TENT)) &&
    (!spots.isEmpty && spots.all (fun sp => sp.1 == r))

/-- The trees locked to column `c`. -/
def lockedTreesCol (g : TGame) (c : Nat) : List (Nat × Nat) :=
  g.trees.filter fun t =>
    let ns := orthNeighbors g.size t.1 t.2
    let spots := ns.filter (fun n => getCell g.player_grid n.1 n.2 == EMPTY)
    !(ns.any (fun n => getCell g.player_grid n.1 n.2 == TENT)) &&
    (!spots.isEmpty && spots.all (fun sp => sp.2 == c))

/-- The EMPTY orthogonal neighbours reserved by a set of locked
trees. -/
def reservedCells (g : TGame) (locked : List (Nat × Nat)) :
    List (Nat × Nat) :=
  locked.flatMap fun t =>
    (orthNeighbors g.size t.1 t.2).filter
      (fun n => getCell g.player_grid n.1 n.2 == EMPTY)

/-- Locked-candidates inner loop over the cells of row `r`. -/
def h6RowInner (g : TGame) (r : Nat) (reserved : List (Nat × Nat)) :
    List Nat → Nat → Option (Nat × Nat × Nat) × Nat
  | [], s => (none, s)
  | c :: cs, s =>
    if getCell g.player_grid r c == EMPTY &&
        !(reserved.contains (r, c)) then
      (some (r, c, GRASS), s + 1)
    else h6RowInner g r reserved cs (s + 1)

/-- Heuristic 6 (locked candidates) on rows. -/
def h6Rows (g : TGame) : List Nat → Nat → Option (Nat × Nat × Nat) × Nat
  | [], s => (none, s)
  | r :: rs, s =>
    let locked := lockedTreesRow g r
    if (g.player_grid.getD r []).countP (fun x => x == TENT) +
        locked.length == g.row_constraints.getD r 0 then
      match h6RowInner g r (reservedCells g locked) (List.range g.size) s with
      | (some m, s') => (some m, s')
      | (none, s') => h6Rows g rs s'
    else h6Rows g rs s

/-- Locked-candidates inner loop over the cells of column `c`. -/
def h6ColInner (g : TGame) (c : Nat) (reserved : List (Nat × Nat)) :
    List Nat → Nat → Option (Nat × Nat × Nat) × Nat
  | [], s => (none, s)
  | r :: rs, s =>
    if getCell g.player_grid r c == EMPTY &&
        !(reserved.contains (r, c)) then
      (some (r, c, GRASS), s + 1)
    else h6ColInner g c reserved rs (s + 1)

/-- Heuristic 6 (locked candidates) on columns. -/
def h6Cols (g : TGame) : List Nat → Nat → Option (Nat × Nat × Nat) × Nat
  | [], s => (none, s)
  | c :: cs, s =>
    let locked := lockedTreesCol g c
    if colTentCount g c + locked.length == g.col_constraints.getD c 0 then
      match h6ColInner g c (reservedCells g locked) (List.range g.size) s with
      | (some m, s') => (some m, s')
      | (none, s') => h6Cols g cs s'
    else h6Cols g cs s

/-- Embedding of `SmartBot._solve_rows_and_cols` on rows: the first forced EMPTY
cell found by the row DP. -/
def dpFirstRow (g : TGame) : List Nat → Option (Nat × Nat × Nat)
  | [] => none
  | r :: rs =>
    let row := g.player_grid.getD r []
    let fixed := (List.range g.size).filter
      (fun c => row.getD c 0 == TENT || row.getD c 0 == GRASS)
    let configs := solve_line_dp g.size (g.row_constraints.getD r 0) row fixed
    if configs.isEmpty then dpFirstRow g rs
    else
      match (find_forced_moves configs).find?
          (fun cv => getCell g.player_grid r cv.1 == EMPTY) with
      | some cv => some (r, cv.1, cv.2)
      | none => dpFirstRow g rs

/-- Embedding of `SmartBot._solve_rows_and_cols` on columns. -/
def dpFirstCol (g : TGame) : List Nat → Option (Nat × Nat × Nat)
  | [] => none
  | c :: cs =>
    let col := (List.range g.size).map (fun r => getCell g.player_grid r c)
    let fixed := (List.range g.size).filter
      (fun r => col.getD r 0 == TENT || col.getD r 0 == GRASS)
    let configs := solve_line_dp g.size (g.col_constraints.getD c 0) col fixed
    if configs.isEmpty then dpFirstCol g cs
    else
      match (find_forced_moves configs).find?
          (fun rv => getCell g.player_grid rv.1 c == EMPTY) with
      | some rv => some (rv.1, c, rv.2)
      | none => dpFirstCol g cs

/-- Embedding of `SmartBot._solve_rows_and_cols`. -/
def solve_rows_and_cols (g : TGame) : Option (Nat × Nat × Nat) :=
  match dpFirstRow g (List.range g.size) with
  | some m => some m
  | none => dpFirstCol g (List.range g.size)

/-- Embedding of `SmartBot.get_best_move`: heuristics 1-6 in order, then the DP
fallback (which adds `size * size` to the scan counter). -/
def smart_get_best_move (g : TGame) : Option (Nat × Nat × Nat × Nat) :=
  match h1Cells g (rowMajorCells g.size) 0 with
  | (some (r, c, v), s) => some (r, c, v, s)
  | (none, s) =>
  match h2Rows g (List.range g.size) s with
  | (some (r, c, v), s) => some (r, c, v, s)
  | (none, s) =>
  match h2Cols g (List.range g.size) s with
  | (some (r, c, v), s) => some (r, c, v, s)
  | (none, s) =>
  match h3Rows g (List.range g.size) s with
  | (some (r, c, v), s) => some (r, c, v, s)
  | (none, s) =>
  match h3Cols g (List.range g.size) s with
  | (some (r, c, v), s) => some (r, c, v, s)
  | (none, s) =>
  match h4Cells g (rowMajorCells g.size) s with
  | (some (r, c, v), s) => some (r, c, v, s)
  | (none, s) =>
  match h5Cells g (rowMajorCells g.size) s with
  | (some (r, c, v), s) => some (r, c, v, s)
  | (none, s) =>
  match h6Rows g (List.range g.size) s with
  | (some (r, c, v), s) => some (r, c, v, s)
  | (none, s) =>
  match h6Cols g (List.range g.size) s with
  | (some (r, c, v), s) => some (r, c, v, s)
  | (none, s) =>
  match solve_rows_and_cols g with
  | some (r, c, v) => some (r, c, v, s + g.size * g.size)
  | none => none

/-- Modelled from the spec: `SmartBot.solve_iteratively` is called by
`BackBot.get_best_move` (back_bot.py line 53) and by the tests but its
definition is absent from the sources. Per section 4.4 (propagation
driver B5) and the BackBot docstring ("apply SmartBot's greedy
heuristics to reduce the board, filling forced TENT and GRASS
cells"), it repeatedly asks `SmartBot.get_best_move` for a forced
move and commits it on the player grid until no move remains,
returning the number of moves applied. Fuel-bounded: each applied
move fills one EMPTY cell, so `size * size + 1` steps always reach
the fixed point. -/
def solve_iteratively : Nat → TGame → TGame × Nat
  | 0, g => (g, 0)
  | fuel + 1, g =>
    match smart_get_best_move g with
    | none => (g, 0)
    | some (r, c, v, _) =>
      let res := solve_iteratively fuel
        { g with player_grid := setCell g.player_grid r c v }
      (res.1, res.2 + 1)

/-- Priority-1 diff scan of `BackBot.get_best_move`: first pending
TENT placement, row-major. -/
def scanTent (live sol : Board) : List (Nat × Nat) → Nat →
    Option (Nat × Nat × Nat × Nat) × Nat
  | [], s => (none, s)
  | p :: ps, s =>
    if getCell live p.1 p.2 == EMPTY && getCell sol p.1 p.2 == TENT then
      (some (p.1, p.2, TENT, s + 1), s + 1)
    else scanTent live sol ps (s + 1)

/-- Priority-2 diff scan: first remaining EMPTY cell becomes GRASS. -/
def scanGrass (live : Board) : List (Nat × Nat) → Nat →
    Option (Nat × Nat × Nat × Nat)
  | [], _ => none
  | p :: ps, s =>
    if getCell live p.1 p.2 == EMPTY then some (p.1, p.2, GRASS, s + 1)
    else scanGrass live ps (s + 1)

/-- Embedding of `BackBot.get_best_move` on a bot with no cached solution: greedy
pre-processing, unresolved-tree collection, budget computation,
backtracking, then the diff scan against the live player grid. -/
def back_get_best_move (g : TGame) : Option (Nat × Nat × Nat × Nat) :=
  let greedy := solve_iteratively (g.size * g.size + 1) g
  let board := greedy.1.player_grid
  let remaining := g.trees.filter fun t =>
    !((orthNeighbors g.size t.1 t.2).any
      (fun n => getCell board n.1 n.2 == TENT))
  let rowRem : List Int := (List.range g.size).map fun r =>
    (g.row_constraints.getD r 0 : Int) - rowTents g.size board r
  let colRem : List Int := (List.range g.size).map fun c =>
    (g.col_constraints.getD c 0 : Int) - colTents g.size board c
  let solOpt : Option Board :=
    if remaining.isEmpty then
      if rowRem.all (fun v => v == 0) && colRem.all (fun v => v == 0) then
        some board
      else none
    else
      let res := solveRec g.size remaining.length remaining board rowRem colRem
      if res.1 then some res.2.1 else none
  match solOpt with
  | none => none
  | some sol =>
    match scanTent g.player_grid sol (rowMajorCells g.size) 0 with
    | (some m, _) => some m
    | (none, s) => scanGrass g.player_grid (rowMajorCells g.size) s

/-- The 3x3 puzzle of the C1 scenario: a single TREE at (0,1), row
targets [1,0,0], column targets [1,0,0]. -/
def c1Game : TGame :=
  ⟨3,
   [[0, 0, 0], [0, 0, 0], [0, 0, 0]],
   [[0, 1, 0], [0, 0, 0], [0, 0, 0]],
   [1, 0, 0], [1, 0, 0], [(0, 1)]⟩

@[simp] theorem countTent_nil : countTent [] = 0 := rfl

theorem countTent_cons (x : Nat) (l : List Nat) :
    countTent (x :: l) = countTent l + if x = TENT then 1 else 0 := by
  simp [countTent, List.countP_cons]

@[simp] theorem countTrees_nil : countTrees [] = 0 := rfl

theorem countTrees_cons (x : Nat) (l : List Nat) :
    countTrees (x :: l) = countTrees l + if x = TREE then 1 else 0 := by
  simp [countTrees, List.countP_cons]

theorem countTrees_le_len (l : List Nat) : countTrees l ≤ l.length :=
  List.countP_le_length _

theorem countTent_add_countTrees_le (fixed : List Nat) :
    ∀ (vs : List Nat) (i : Nat) (ws : List Nat),
      cellsOkB fixed i vs ws = true →
      countTent ws + countTrees vs ≤ vs.length := by
  intro vs
  induction vs with
  | nil =>
    intro i ws h
    cases ws with
    | nil => simp
    | cons w ws => simp [cellsOkB] at h
  | cons v vs ih =>
    intro i ws h
    cases ws with
    | nil => simp [cellsOkB] at h
    | cons w ws =>
      simp only [cellsOkB, Bool.and_eq_true] at h
      obtain ⟨h1, h2⟩ := h
      have hrec := ih (i + 1) ws h2
      simp only [cellOkB] at h1
      by_cases hv : v = TREE
      · rw [if_pos (by simp [hv])] at h1
        have hw : w = TREE := eq_of_beq h1
        simp [hv, hw, countTent_cons, countTrees_cons, TREE, TENT]
        omega
      · rw [if_neg (by simp [hv])] at h1
        have hwt : w = TENT → True := fun _ => trivial
        simp only [countTent_cons, countTrees_cons, if_neg hv, List.length_cons]
        split <;> omega

theorem noAdj_cons (last : Bool) (x : Nat) (xs : List Nat) :
    noAdjTentFrom last (x :: xs) = true ↔
      (¬(last = true ∧ x = TENT)) ∧ noAdjTentFrom (x == TENT) xs = true := by
  cases last <;> by_cases hx : x = TENT <;> simp [noAdjTentFrom, hx]

theorem cellsOk_cons (fixed : List Nat) (i v w : Nat) (vs ws : List Nat) :
    cellsOkB fixed i (v :: vs) (w :: ws) = true ↔
      cellOkB fixed i v w = true ∧ cellsOkB fixed (i + 1) vs ws = true := by
  simp [cellsOkB]

set_option maxHeartbeats 1000000 in
theorem lineRec_mem_iff (target : Nat) (fixed : List Nat) :
    ∀ (rest : List Nat) (i placed : Nat) (lastTent : Bool) (cfg : List Nat),
      cfg ∈ lineRec target fixed i placed lastTent rest ↔
        (placed + countTent cfg = target ∧ noAdjTentFrom lastTent cfg = true ∧
          cellsOkB fixed i rest cfg = true) := by
  intro rest
  induction rest with
  | nil =>
    intro i placed lastTent cfg
    rcases cfg with _ | ⟨w, ws⟩
    · by_cases h : placed = target
      · simp [lineRec, h, cellsOkB, noAdjTentFrom]
      · simp only [lineRec]
        rw [if_neg (by simpa using h)]
        simp [cellsOkB, h]
    · by_cases h : placed = target
      · simp [lineRec, h, cellsOkB]
      · simp only [lineRec]
        rw [if_neg (by simpa using h)]
        simp [cellsOkB]
  | cons v vs ih =>
    intro i placed lastTent cfg
    simp only [lineRec]
    split_ifs with hTree hP1 hP2 hFT hLT hFG hLT2
    -- Branch 1: TREE is copied through
    · have hv : v = TREE := eq_of_beq hTree
      rcases cfg with _ | ⟨w, ws⟩
      · simp [cellsOkB]
      · simp only [List.mem_map, ih, noAdj_cons, cellsOk_cons]
        constructor
        · rintro ⟨s, ⟨hsc, hsa, hsk⟩, heq⟩
          injection heq with h1 h2
          subst h1; subst h2
          refine ⟨?_, ⟨?_, ?_⟩, ?_, ?_⟩
          · rw [countTent_cons]
            have : ¬(TREE = TENT) := by simp [TREE, TENT]
            rw [if_neg this]
            omega
          · simp [TREE, TENT]
          · simpa [TREE, TENT] using hsa
          · simp [cellOkB, hv]
          · exact hsk
        · rintro ⟨hcount, ⟨-, hadj⟩, hok, hcells⟩
          have hw : w = TREE := by
            simp only [cellOkB, hv] at hok
            rw [if_pos (by simp)] at hok
            exact eq_of_beq hok
          subst hw
          refine ⟨ws, ⟨?_, ?_, hcells⟩, rfl⟩
          · rw [countTent_cons] at hcount
            have : ¬(TREE = TENT) := by simp [TREE, TENT]
            rw [if_neg this] at hcount
            omega
          · simpa [TREE, TENT] using hadj
    -- Branch 2: placed exceeds target
    · rcases cfg with _ | ⟨w, ws⟩
      · simp [cellsOkB]
      · simp only [List.not_mem_nil, false_iff]
        rintro ⟨hcount, -, -⟩
        omega
    -- Branch 3: upper-bound prune
    · rcases cfg with _ | ⟨w, ws⟩
      · simp [cellsOkB]
      · simp only [List.not_mem_nil, false_iff]
        rintro ⟨hcount, -, hcells⟩
        have hb := countTent_add_countTrees_le fixed (v :: vs) i (w :: ws) hcells
        have hc := countTrees_le_len (v :: vs)
        simp only [List.length_cons] at hb hc
        omega
    -- Branch 4: fixed TENT after a tent
    · have hv : v = TENT := eq_of_beq (Bool.and_elim_right hFT)
      have hcond : (fixed.contains i && (v == TENT || v == GRASS)) = true := by
        rw [Bool.and_eq_true]
        exact ⟨Bool.and_elim_left hFT, by simp [hv]⟩
      rcases cfg with _ | ⟨w, ws⟩
      · simp [cellsOkB]
      · simp only [List.not_mem_nil, false_iff]
        rintro ⟨-, hadj, hcells⟩
        rw [cellsOk_cons] at hcells
        have hw : w = TENT := by
          have hok := hcells.1
          simp only [cellOkB] at hok
          rw [if_neg (by simp [hv, TENT, TREE])] at hok
          rw [if_pos hcond] at hok
          simpa [hv] using eq_of_beq hok
        rw [noAdj_cons] at hadj
        exact hadj.1 ⟨hLT, hw⟩
    -- Branch 5: fixed TENT, placeable
    · have hv : v = TENT := eq_of_beq (Bool.and_elim_right hFT)
      have hcond : (fixed.contains i && (v == TENT || v == GRASS)) = true := by
        rw [Bool.and_eq_true]
        exact ⟨Bool.and_elim_left hFT, by simp [hv]⟩
      have hl : lastTent = false := by simpa using hLT
      rcases cfg with _ | ⟨w, ws⟩
      · simp [cellsOkB]
      · simp only [List.mem_map, ih, noAdj_cons, cellsOk_cons]
        constructor
        · rintro ⟨s, ⟨hsc, hsa, hsk⟩, heq⟩
          injection heq with h1 h2
          subst h1; subst h2
          refine ⟨?_, ⟨?_, ?_⟩, ?_, ?_⟩
          · rw [countTent_cons, if_pos rfl]
            omega
          · simp [hl]
          · simpa using hsa
          · simp only [cellOkB]
            rw [if_neg (by simp [hv, TENT, TREE])]
            rw [if_pos hcond]
            simp [hv]
          · exact hsk
        · rintro ⟨hcount, ⟨-, hadj⟩, hok, hcells⟩
          have hw : w = TENT := by
            simp only [cellOkB] at hok
            rw [if_neg (by simp [hv, TENT, TREE])] at hok
            rw [if_pos hcond] at hok
            simpa [hv] using eq_of_beq hok
          subst hw
          refine ⟨ws, ⟨?_, ?_, hcells⟩, rfl⟩
          · rw [countTent_cons, if_pos rfl] at hcount
            omega
          · simpa using hadj
    -- Branch 6: fixed GRASS
    · have hv : v = GRASS := eq_of_beq (Bool.and_elim_right hFG)
      have hcond : (fixed.contains i && (v == TENT || v == GRASS)) = true := by
        rw [Bool.and_eq_true]
        exact ⟨Bool.and_elim_left hFG, by simp [hv]⟩
      rcases cfg with _ | ⟨w, ws⟩
      · simp [cellsOkB]
      · simp only [List.mem_map, ih, noAdj_cons, cellsOk_cons]
        constructor
        · rintro ⟨s, ⟨hsc, hsa, hsk⟩, heq⟩
          injection heq with h1 h2
          subst h1; subst h2
          refine ⟨?_, ⟨?_, ?_⟩, ?_, ?_⟩
          · rw [countTent_cons]
            have : ¬(GRASS = TENT) := by simp [GRASS, TENT]
            rw [if_neg this]
            omega
          · simp [GRASS, TENT]
          · simpa [GRASS, TENT] using hsa
          · simp only [cellOkB]
            rw [if_neg (by simp [hv, GRASS, TREE])]
            rw [if_pos hcond]
            simp [hv]
          · exact hsk
        · rintro ⟨hcount, ⟨-, hadj⟩, hok, hcells⟩
          have hw : w = GRASS := by
            simp only [cellOkB] at hok
            rw [if_neg (by simp [hv, GRASS, TREE])] at hok
            rw [if_pos hcond] at hok
            simpa [hv] using eq_of_beq hok
          subst hw
          refine ⟨ws, ⟨?_, ?_, hcells⟩, rfl⟩
          · rw [countTent_cons] at hcount
            have : ¬(GRASS = TENT) := by simp [GRASS, TENT]
            rw [if_neg this] at hcount
            omega
          · simpa [GRASS, TENT] using hadj
    -- Branches 7 and 8: free cell
    · have hv : v ≠ TREE := fun h => by simp [h] at hTree
      have hFT' : (fixed.contains i && v == TENT) = false := by
        simpa using hFT
      have hFG' : (fixed.contains i && v == GRASS) = false := by
        simpa using hFG
      have hcond : (fixed.contains i && (v == TENT || v == GRASS)) = false := by
        rw [Bool.and_or_distrib_left, hFT', hFG']
        rfl
      have hcond2 : ¬((fixed.contains i && (v == TENT || v == GRASS)) = true) := by
        rw [hcond]
        exact Bool.false_ne_true
      rcases cfg with _ | ⟨w, ws⟩
      · simp [cellsOkB]
      · simp only [List.nil_append, List.mem_map, ih, noAdj_cons, cellsOk_cons]
        constructor
        · rintro ⟨s, ⟨hsc, hsa, hsk⟩, heq⟩
          injection heq with h1 h2
          subst h1; subst h2
          refine ⟨?_, ⟨?_, ?_⟩, ?_, ?_⟩
          · rw [countTent_cons]
            have : ¬(GRASS = TENT) := by simp [GRASS, TENT]
            rw [if_neg this]
            omega
          · simp [GRASS, TENT]
          · simpa [GRASS, TENT] using hsa
          · simp only [cellOkB]
            rw [if_neg (by simp [hv]), if_neg hcond2]
            simp [GRASS]
          · exact hsk
        · rintro ⟨hcount, ⟨hna, hadj⟩, hok, hcells⟩
          have hok' : (w == TENT || w == GRASS) = true := by
            simp only [cellOkB] at hok
            rw [if_neg (by simp [hv]), if_neg hcond2] at hok
            exact hok
          have hw : w = TENT ∨ w = GRASS := by
            rcases Bool.or_eq_true_iff.mp hok' with h | h
            · exact Or.inl (eq_of_beq h)
            · exact Or.inr (eq_of_beq h)
          rcases hw with hw | hw
          · exact absurd ⟨hLT2, hw⟩ hna
          · subst hw
            refine ⟨ws, ⟨?_, ?_, hcells⟩, rfl⟩
            · rw [countTent_cons] at hcount
              have : ¬(GRASS = TENT) := by simp [GRASS, TENT]
              rw [if_neg this] at hcount
              omega
            · simpa [GRASS, TENT] using hadj
    · have hv : v ≠ TREE := fun h => by simp [h] at hTree
      have hFT' : (fixed.contains i && v == TENT) = false := by
        simpa using hFT
      have hFG' : (fixed.contains i && v == GRASS) = false := by
        simpa using hFG
      have hcond : (fixed.contains i && (v == TENT || v == GRASS)) = false := by
        rw [Bool.and_or_distrib_left, hFT', hFG']
        rfl
      have hcond2 : ¬((fixed.contains i && (v == TENT || v == GRASS)) = true) := by
        rw [hcond]
        exact Bool.false_ne_true
      have hl : lastTent = false := by simpa using hLT2
      rcases cfg with _ | ⟨w, ws⟩
      · simp [cellsOkB]
      · simp only [List.mem_append, List.mem_map, ih, noAdj_cons, cellsOk_cons]
        constructor
        · rintro (⟨s, ⟨hsc, hsa, hsk⟩, heq⟩ | ⟨s, ⟨hsc, hsa, hsk⟩, heq⟩)
          · injection heq with h1 h2
            subst h1; subst h2
            refine ⟨?_, ⟨?_, ?_⟩, ?_, ?_⟩
            · rw [countTent_cons, if_pos rfl]
              omega
            · simp [hl]
            · simpa using hsa
            · simp only [cellOkB]
              rw [if_neg (by simp [hv]), if_neg hcond2]
              simp [TENT]
            · exact hsk
          · injection heq with h1 h2
            subst h1; subst h2
            refine ⟨?_, ⟨?_, ?_⟩, ?_, ?_⟩
            · rw [countTent_cons]
              have : ¬(GRASS = TENT) := by simp [GRASS, TENT]
              rw [if_neg this]
              omega
            · simp [GRASS, TENT]
            · simpa [GRASS, TENT] using hsa
            · simp only [cellOkB]
              rw [if_neg (by simp [hv]), if_neg hcond2]
              simp [GRASS]
            · exact hsk
        · rintro ⟨hcount, ⟨hna, hadj⟩, hok, hcells⟩
          have hok' : (w == TENT || w == GRASS) = true := by
            simp only [cellOkB] at hok
            rw [if_neg (by simp [hv]), if_neg hcond2] at hok
            exact hok
          have hw : w = TENT ∨ w = GRASS := by
            rcases Bool.or_eq_true_iff.mp hok' with h | h
            · exact Or.inl (eq_of_beq h)
            · exact Or.inr (eq_of_beq h)
          rcases hw with hw | hw
          · subst hw
            refine Or.inl ⟨ws, ⟨?_, ?_, hcells⟩, rfl⟩
            · rw [countTent_cons, if_pos rfl] at hcount
              omega
            · simpa using hadj
          · subst hw
            refine Or.inr ⟨ws, ⟨?_, ?_, hcells⟩, rfl⟩
            · rw [countTent_cons] at hcount
              have : ¬(GRASS = TENT) := by simp [GRASS, TENT]
              rw [if_neg this] at hcount
              omega
            · simpa [GRASS, TENT] using hadj

set_option maxRecDepth 4096 in
theorem cellsOk_iff_forall (fixed : List Nat) :
    ∀ (vs : List Nat) (i : Nat) (ws : List Nat),
      cellsOkB fixed i vs ws = true ↔
        (ws.length = vs.length ∧
         ∀ j, j < vs.length →
           cellOkB fixed (i + j) (vs.getD j 0) (ws.getD j 0) = true) := by
  intro vs
  induction vs with
  | nil =>
    intro i ws
    cases ws with
    | nil => simp [cellsOkB]
    | cons w ws => simp [cellsOkB]
  | cons v vs ih =>
    intro i ws
    cases ws with
    | nil => simp [cellsOkB]
    | cons w ws =>
      rw [cellsOk_cons, ih (i + 1) ws]
      constructor
      · rintro ⟨h1, h2, h3⟩
        refine ⟨by simpa using h2, ?_⟩
        intro j hj
        cases j with
        | zero => simpa using h1
        | succ j =>
          have hj' : j < vs.length := by simpa using hj
          have hh := h3 j hj'
          simp only [List.getD_cons_succ]
          rw [show i + (j + 1) = (i + 1) + j by omega]
          exact hh
      · rintro ⟨h1, h2⟩
        refine ⟨by simpa using h2 0 (by simp), by simpa using h1, ?_⟩
        intro j hj
        have hh := h2 (j + 1) (by simpa using Nat.succ_lt_succ hj)
        rw [show (i + 1) + j = i + (j + 1) by omega]
        simpa using hh

theorem cellOk_spec_equiv (fixed : List Nat) (j v w : Nat)
    (hfixv : fixed.contains j = true → v = TENT ∨ v = GRASS) :
    cellOkB fixed j v w =
      (if v == TREE then w == TREE
       else if fixed.contains j then w == v
       else w == TENT || w == GRASS) := by
  unfold cellOkB
  by_cases h1 : (v == TREE) = true
  · rw [if_pos h1, if_pos h1]
  · rw [if_neg h1, if_neg h1]
    cases hc : fixed.contains j with
    | false => simp
    | true =>
      rcases hfixv hc with hv | hv <;> simp [hv]

theorem spec_c2_aux (target : Nat) (line fixed : List Nat)
    (hfix : ∀ i, fixed.contains i = true → i < line.length →
      line.getD i 0 = TENT ∨ line.getD i 0 = GRASS) :
    ∀ cfg, cfg ∈ solve_line_dp line.length target line fixed ↔
      isValidCompletionB target line fixed cfg = true := by
  intro cfg
  rw [solve_line_dp, show line.take line.length = line by simp,
    lineRec_mem_iff, cellsOk_iff_forall]
  unfold isValidCompletionB
  simp only [Bool.and_eq_true, beq_iff_eq, List.all_eq_true, List.mem_range,
    Nat.zero_add]
  have hpt : ∀ j, j < line.length →
      (cellOkB fixed j (line.getD j 0) (cfg.getD j 0) = true ↔
        (if line.getD j 0 = TREE then cfg.getD j 0 == TREE
         else if fixed.contains j = true then cfg.getD j 0 == line.getD j 0
         else cfg.getD j 0 == TENT || cfg.getD j 0 == GRASS) = true) := by
    intro j hj
    rw [cellOk_spec_equiv fixed j _ _ (fun hc => hfix j hc hj)]
    simp only [beq_iff_eq]
  constructor
  · rintro ⟨h1, h2, h3, h4⟩
    exact ⟨⟨⟨h3, h1⟩, h2⟩, fun j hj => (hpt j hj).mp (h4 j hj)⟩
  · rintro ⟨⟨⟨h3, h1⟩, h2⟩, h4⟩
    exact ⟨h1, h2, h3, fun j hj => (hpt j hj).mpr (h4 j hj)⟩

theorem lineRec_fixed_congr (target : Nat) (fixed₁ fixed₂ : List Nat) :
    ∀ (vs : List Nat) (i placed : Nat) (lt : Bool),
      (∀ j, j < vs.length → (vs.getD j 0 = TENT ∨ vs.getD j 0 = GRASS) →
        fixed₁.contains (i + j) = fixed₂.contains (i + j)) →
      lineRec target fixed₁ i placed lt vs = lineRec target fixed₂ i placed lt vs := by
  intro vs
  induction vs with
  | nil => intro i placed lt _; rfl
  | cons v vs ih =>
    intro i placed lt hyp
    have hrec : ∀ (p : Nat) (l : Bool),
        lineRec target fixed₁ (i + 1) p l vs = lineRec target fixed₂ (i + 1) p l vs := by
      intro p l
      apply ih
      intro j hj hv
      have hh := hyp (j + 1) (by simpa using Nat.succ_lt_succ hj) (by simpa using hv)
      rw [show (i + 1) + j = i + (j + 1) by omega]
      exact hh
    have hc1 : (fixed₁.contains i && v == TENT) = (fixed₂.contains i && v == TENT) := by
      by_cases hvt : v = TENT
      · have := hyp 0 (by simp) (by simp [hvt])
        simpa using congrArg (fun b => b && (v == TENT)) this
      · have hv' : (v == TENT) = false := by simpa using hvt
        rw [hv', Bool.and_false, Bool.and_false]
    have hc2 : (fixed₁.contains i && v == GRASS) = (fixed₂.contains i && v == GRASS) := by
      by_cases hvt : v = GRASS
      · have := hyp 0 (by simp) (by simp [hvt])
        simpa using congrArg (fun b => b && (v == GRASS)) this
      · have hv' : (v == GRASS) = false := by simpa using hvt
        rw [hv', Bool.and_false, Bool.and_false]
    simp only [lineRec, hc1, hc2, hrec]

theorem find_forced_moves_mem (configs : List (List Nat)) (n : Nat)
    (hlen : ∀ cfg ∈ configs, cfg.length = n) :
    ∀ i v, ((i, v) ∈ find_forced_moves configs ↔
      (configs ≠ [] ∧ i < n ∧ (v = TENT ∨ v = GRASS) ∧
        ∀ cfg ∈ configs, cfg.getD i 0 = v)) := by
  intro i v
  match configs, hlen with
  | [], _ => simp [find_forced_moves]
  | cfg₀ :: rest, hlen =>
    have h₀ : cfg₀.length = n := hlen cfg₀ (by simp)
    simp only [find_forced_moves, List.mem_filterMap, List.mem_range]
    constructor
    · rintro ⟨a, ha, hbody⟩
      by_cases hall : ((cfg₀ :: rest).all fun cfg => cfg.getD a 0 == cfg₀.getD a 0) = true
      · rw [if_pos hall] at hbody
        by_cases htg : (cfg₀.getD a 0 == TENT || cfg₀.getD a 0 == GRASS) = true
        · rw [if_pos htg] at hbody
          injection hbody with hbody
          injection hbody with h1 h2
          subst h1
          refine ⟨by simp, by omega, ?_, ?_⟩
          · rcases Bool.or_eq_true_iff.mp htg with h | h
            · exact Or.inl (h2 ▸ eq_of_beq h)
            · exact Or.inr (h2 ▸ eq_of_beq h)
          · intro cfg hcfg
            have := List.all_eq_true.mp hall cfg hcfg
            rw [← h2]
            exact eq_of_beq this
        · rw [if_neg htg] at hbody
          exact absurd hbody (by simp)
      · rw [if_neg hall] at hbody
        exact absurd hbody (by simp)
    · rintro ⟨-, hi, htg, hall⟩
      refine ⟨i, by omega, ?_⟩
      have h₀v : cfg₀.getD i 0 = v := hall cfg₀ (by simp)
      have hallb : ((cfg₀ :: rest).all fun cfg => cfg.getD i 0 == cfg₀.getD i 0) = true := by
        rw [List.all_eq_true]
        intro cfg hcfg
        rw [hall cfg hcfg, h₀v]
        simp
      rw [if_pos hallb]
      have htgb : (cfg₀.getD i 0 == TENT || cfg₀.getD i 0 == GRASS) = true := by
        rcases htg with h | h <;> rw [h₀v, h] <;> simp
      rw [if_pos htgb, h₀v]

theorem contains_filter_bne (fixed : List Nat) (i a : Nat) (h : a ≠ i) :
    (fixed.filter (fun j => j != i)).contains a = fixed.contains a := by
  by_cases hm : a ∈ fixed
  · have h1 : (fixed.filter (fun j => j != i)).contains a = true :=
      List.elem_iff.mpr (List.mem_filter.mpr ⟨hm, by simp [h]⟩)
    have h2 : fixed.contains a = true := List.elem_iff.mpr hm
    rw [h1, h2]
  · have h1 : (fixed.filter (fun j => j != i)).contains a = false := by
      rw [Bool.eq_false_iff]
      intro hc
      exact hm (List.mem_filter.mp (List.elem_iff.mp hc)).1
    have h2 : fixed.contains a = false := by
      rw [Bool.eq_false_iff]
      intro hc
      exact hm (List.elem_iff.mp hc)
    rw [h1, h2]

/-- C2: every configuration returned by `solve_line_dp` is a valid
completion in the sense of the spec (right length, exactly `target`
tents, no adjacent tents, TREE copied, fixed kept, rest TENT/GRASS),
and the result is empty exactly when no valid completion exists —
provided the fixed indices hold only TENT or GRASS values. -/
theorem spec_c2_solve_line_dp (length target : Nat) (line fixed : List Nat)
    (hlen : length = line.length)
    (hfix : ∀ i, fixed.contains i = true → i < line.length →
      line.getD i 0 = TENT ∨ line.getD i 0 = GRASS) :
    (∀ cfg, cfg ∈ solve_line_dp length target line fixed ↔
        isValidCompletionB target line fixed cfg = true) ∧
    (solve_line_dp length target line fixed = [] ↔
        ∀ cfg, isValidCompletionB target line fixed cfg = false) := by
  subst hlen
  refine ⟨spec_c2_aux target line fixed hfix, ?_⟩
  rw [List.eq_nil_iff_forall_not_mem]
  constructor
  · intro h cfg
    have hn := h cfg
    rw [spec_c2_aux target line fixed hfix cfg] at hn
    exact Bool.eq_false_iff.mpr hn
  · intro h cfg hmem
    have hv := (spec_c2_aux target line fixed hfix cfg).mp hmem
    rw [h cfg] at hv
    exact Bool.false_ne_true hv

theorem spec_c2_witness :
    ([2, 1, 3] ∈ solve_line_dp 3 1 [0, 1, 0] [] ↔
      isValidCompletionB 1 [0, 1, 0] [] [2, 1, 3] = true) :=
  (spec_c2_solve_line_dp 3 1 [0, 1, 0] [] (by decide)
    (by intro i h hi; simp at h)).1 [2, 1, 3]

/-- C3: on a blank line of length 4 with target 2, `solve_line_dp`
returns exactly the three completions TGTG, TGGT and GTGT, without
duplicates. -/
theorem spec_c3_enumerate_4_2 :
    (solve_line_dp 4 2 [EMPTY, EMPTY, EMPTY, EMPTY] []).length = 3 ∧
    (solve_line_dp 4 2 [EMPTY, EMPTY, EMPTY, EMPTY] []).Nodup ∧
    ∀ cfg, cfg ∈ solve_line_dp 4 2 [EMPTY, EMPTY, EMPTY, EMPTY] [] ↔
      cfg ∈ [[TENT, GRASS, TENT, GRASS], [TENT, GRASS, GRASS, TENT],
             [GRASS, TENT, GRASS, TENT]] := by
  have h : solve_line_dp 4 2 [EMPTY, EMPTY, EMPTY, EMPTY] [] =
      [[TENT, GRASS, TENT, GRASS], [TENT, GRASS, GRASS, TENT],
       [GRASS, TENT, GRASS, TENT]] := by decide
  rw [h]
  exact ⟨rfl, by decide, fun cfg => Iff.rfl⟩

/-- C4: for completions of equal length, `find_forced_moves` maps
exactly the indices on which all completions agree on a TENT or GRASS
value to that value (TREE-agreement is never emitted), and returns the
empty map on the empty list. -/
theorem spec_c4_find_forced (configs : List (List Nat)) (n : Nat)
    (hlen : ∀ cfg ∈ configs, cfg.length = n) (i v : Nat) :
    find_forced_moves ([] : List (List Nat)) = [] ∧
    ((i, v) ∈ find_forced_moves configs ↔
      (configs ≠ [] ∧ i < n ∧ (v = TENT ∨ v = GRASS) ∧
        ∀ cfg ∈ configs, cfg.getD i 0 = v)) :=
  ⟨rfl, find_forced_moves_mem configs n hlen i v⟩

theorem spec_c4_witness :
    (∀ cfg ∈ [[2, 3], [2, 2]], cfg.length = 2) ∧
    (find_forced_moves ([] : List (List Nat)) = [] ∧
      ((0, 2) ∈ find_forced_moves [[2, 3], [2, 2]] ↔
        ([[2, 3], [2, 2]] ≠ ([] : List (List Nat)) ∧ 0 < 2 ∧
          ((2 : Nat) = TENT ∨ (2 : Nat) = GRASS) ∧
          ∀ cfg ∈ [[2, 3], [2, 2]], cfg.getD 0 0 = 2))) :=
  ⟨by decide, spec_c4_find_forced [[2, 3], [2, 2]] 2 (by decide) 0 2⟩

/-- C9, counterexample: a fixed index whose current value is TREE (a
value that is neither TENT nor GRASS) is not treated as a free cell —
the completions copy the TREE through and never assign TENT or GRASS
there. -/
theorem spec_c9_counterexample :
    ([0] : List Nat).contains 0 = true ∧
    ([1] : List Nat).getD 0 0 ≠ TENT ∧
    ([1] : List Nat).getD 0 0 ≠ GRASS ∧
    solve_line_dp 1 0 [1] [0] = [[1]] ∧
    (solve_line_dp 1 0 [1] [0]).all
      (fun cfg => !(cfg.getD 0 0 == TENT || cfg.getD 0 0 == GRASS)) = true := by
  decide

/-- C9, amended: a fixed index whose current value is neither TENT,
GRASS nor TREE (in particular EMPTY) is treated as a free cell — its
fixed status is silently ignored: removing it from the fixed set does
not change the result of `solve_line_dp`. -/
theorem spec_c9_fixed_nonvalue_ignored (length target : Nat)
    (line fixed : List Nat) (i : Nat)
    (hv1 : line.getD i 0 ≠ TENT) (hv2 : line.getD i 0 ≠ GRASS) :
    solve_line_dp length target line fixed =
      solve_line_dp length target line (fixed.filter (fun j => j != i)) := by
  unfold solve_line_dp
  apply lineRec_fixed_congr
  intro j hj hv
  have hgd : (line.take length).getD j 0 = line.getD j 0 := by
    have hjl : j < length :=
      lt_of_lt_of_le hj (by simpa using List.length_take_le length line)
    simp [List.getD_eq_getElem?_getD, List.getElem?_take, hjl]
  have hji : j ≠ i := by
    intro h
    subst h
    rw [hgd] at hv
    rcases hv with h | h
    · exact hv1 h
    · exact hv2 h
  rw [Nat.zero_add]
  exact (contains_filter_bne fixed i j hji).symm

theorem spec_c9_amended_witness :
    solve_line_dp 2 1 [0, 0] [0] =
      solve_line_dp 2 1 [0, 0] (([0] : List Nat).filter (fun j => j != 0)) :=
  spec_c9_fixed_nonvalue_ignored 2 1 [0, 0] [0] 0 (by decide) (by decide)

theorem getD_set_ne {α : Type} (l : List α) (i j : Nat) (v d : α) (h : j ≠ i) :
    (l.set i v).getD j d = l.getD j d := by
  simp [List.getD_eq_getElem?_getD, List.getElem?_set_ne (Ne.symm h)]

theorem getD_set_self_lt {α : Type} (l : List α) (i : Nat) (v d : α)
    (h : i < l.length) : (l.set i v).getD i d = v := by
  simp [List.getD_eq_getElem?_getD, List.getElem?_set_eq h]

theorem getD_eq_getElem_of_lt {α : Type} (l : List α) (i : Nat) (d : α)
    (h : i < l.length) : l.getD i d = l[i] := by
  simp [List.getD_eq_getElem?_getD, List.getElem?_eq_getElem h]

theorem set_getD_id {α : Type} (l : List α) (i : Nat) (d : α) :
    l.set i (l.getD i d) = l := by
  induction l generalizing i with
  | nil => simp
  | cons x xs ih =>
    cases i with
    | zero => simp
    | succ i =>
      have := ih i
      simp only [List.set_cons_succ, List.getD_cons_succ]
      rw [this]

theorem getCell_setCell_ne (b : Board) (r c v r' c' : Nat)
    (h : ¬(r' = r ∧ c' = c)) :
    getCell (setCell b r c v) r' c' = getCell b r' c' := by
  unfold getCell setCell
  by_cases hr : r' = r
  · subst hr
    have hc : c' ≠ c := fun hh => h ⟨rfl, hh⟩
    by_cases hb : r' < b.length
    · rw [getD_set_self_lt _ _ _ _ hb, getD_set_ne _ _ _ _ _ hc]
    · rw [List.set_eq_of_length_le (Nat.le_of_not_lt hb)]
  · rw [getD_set_ne _ _ _ _ _ hr]

theorem getCell_setCell_self (b : Board) (r c v : Nat)
    (hr : r < b.length) (hc : c < (b.getD r []).length) :
    getCell (setCell b r c v) r c = v := by
  unfold getCell setCell
  rw [getD_set_self_lt _ _ _ _ hr, getD_set_self_lt _ _ _ _ hc]

theorem setCell_length (b : Board) (r c v : Nat) :
    (setCell b r c v).length = b.length := List.length_set ..

theorem setCell_row_length (b : Board) (r c v r' : Nat) :
    ((setCell b r c v).getD r' []).length = (b.getD r' []).length := by
  unfold setCell
  by_cases hr : r' = r
  · subst hr
    by_cases hb : r' < b.length
    · rw [getD_set_self_lt _ _ _ _ hb, List.length_set]
    · rw [List.set_eq_of_length_le (Nat.le_of_not_lt hb)]
  · rw [getD_set_ne _ _ _ _ _ hr]

theorem boardWF_row_len {size : Nat} {b : Board} (h : boardWF size b)
    (r : Nat) (hr : r < size) : (b.getD r []).length = size := by
  have hlt : r < b.length := by rw [h.1]; exact hr
  rw [getD_eq_getElem_of_lt _ _ _ hlt]
  exact h.2 _ (List.getElem_mem hlt)

theorem boardWF_setCell {size : Nat} {b : Board} (r c v : Nat)
    (h : boardWF size b) : boardWF size (setCell b r c v) := by
  by_cases hr : r < b.length
  · constructor
    · rw [setCell_length, h.1]
    · intro row hrow
      rcases List.mem_or_eq_of_mem_set hrow with hm | he
      · exact h.2 _ hm
      · rw [he, List.length_set]
        exact boardWF_row_len h r (by rw [← h.1]; exact hr)
  · unfold setCell
    rw [List.set_eq_of_length_le (Nat.le_of_not_lt hr)]
    exact h

theorem board_ext (b₁ b₂ : Board)
    (hlen : b₁.length = b₂.length)
    (hrow : ∀ r, (b₁.getD r []).length = (b₂.getD r []).length)
    (hcell : ∀ r c, getCell b₁ r c = getCell b₂ r c) :
    b₁ = b₂ := by
  apply List.ext_getElem hlen
  intro r h1 h2
  apply List.ext_getElem
  · have hh := hrow r
    rw [getD_eq_getElem_of_lt _ _ _ h1, getD_eq_getElem_of_lt _ _ _ h2] at hh
    exact hh
  · intro c hc1 hc2
    have hh := hcell r c
    unfold getCell at hh
    rw [getD_eq_getElem_of_lt _ _ _ h1, getD_eq_getElem_of_lt _ _ _ h2] at hh
    rw [getD_eq_getElem_of_lt _ _ _ hc1, getD_eq_getElem_of_lt _ _ _ hc2] at hh
    exact hh

/-- C10: `make_move` either succeeds, changing exactly the one target
cell of the player grid (and nothing else in the game state), or fails
leaving the game unchanged; it always fails on out-of-bounds targets,
on TREE cells, and on TENT moves that touch another tent or would
exceed the row or column target. -/
theorem spec_c10_make_move (g : TGame) (r c mt : Nat) :
    ((make_move g r c mt).1 = true →
      (make_move g r c mt).2 =
        { g with player_grid := setCell g.player_grid r c mt } ∧
      (∀ r' c', ¬(r' = r ∧ c' = c) →
        getCell (make_move g r c mt).2.player_grid r' c' =
          getCell g.player_grid r' c') ∧
      (boardWF g.size g.player_grid →
        getCell (make_move g r c mt).2.player_grid r c = mt) ∧
      (make_move g r c mt).2.solution_grid = g.solution_grid ∧
      (make_move g r c mt).2.row_constraints = g.row_constraints ∧
      (make_move g r c mt).2.col_constraints = g.col_constraints ∧
      (make_move g r c mt).2.trees = g.trees ∧
      (make_move g r c mt).2.size = g.size) ∧
    ((make_move g r c mt).1 = false → (make_move g r c mt).2 = g) ∧
    (¬(r < g.size ∧ c < g.size) → (make_move g r c mt).1 = false) ∧
    (getCell g.player_grid r c = TREE → (make_move g r c mt).1 = false) ∧
    (mt = TENT → hasAdjacentTent g r c = true →
      (make_move g r c mt).1 = false) ∧
    (mt = TENT →
      g.row_constraints.getD r 0 <
        (g.player_grid.getD r []).countP (fun x => x == TENT) + 1 →
      (make_move g r c mt).1 = false) ∧
    (mt = TENT → g.col_constraints.getD c 0 < colTentCount g c + 1 →
      (make_move g r c mt).1 = false) := by
  by_cases hleg : is_move_legal g r c mt = true
  · have hmm : make_move g r c mt =
        (true, { g with player_grid := setCell g.player_grid r c mt }) := by
      rw [make_move, if_pos hleg]
    rw [hmm]
    refine ⟨?_, ?_, ?_, ?_, ?_, ?_, ?_⟩
    · intro _
      refine ⟨rfl, ?_, ?_, rfl, rfl, rfl, rfl, rfl⟩
      · intro r' c' hne
        exact getCell_setCell_ne _ _ _ _ _ _ hne
      · intro hwf
        have hbound : r < g.size ∧ c < g.size := by
          by_contra hcon
          rw [is_move_legal, if_pos hcon] at hleg
          exact Bool.false_ne_true hleg
        apply getCell_setCell_self
        · rw [hwf.1]; exact hbound.1
        · rw [boardWF_row_len hwf r hbound.1]; exact hbound.2
    · intro hfalse
      exact absurd hfalse (by simp)
    · intro hcon
      rw [is_move_legal, if_pos hcon] at hleg
      exact absurd hleg (by simp)
    · intro htree
      rw [is_move_legal] at hleg
      split_ifs at hleg
      all_goals simp_all
    · intro hmt hadj
      subst hmt
      rw [is_move_legal] at hleg
      split_ifs at hleg with h1 h2 h3 h4 h5 h6
      all_goals simp_all
    · intro hmt hrow
      subst hmt
      rw [is_move_legal] at hleg
      split_ifs at hleg with h1 h2 h3 h4 h5 h6
      all_goals simp_all
    · intro hmt hcol
      subst hmt
      rw [is_move_legal] at hleg
      split_ifs at hleg with h1 h2 h3 h4 h5 h6
      all_goals simp_all
  · have hmm : make_move g r c mt = (false, g) := by
      rw [make_move, if_neg hleg]
    rw [hmm]
    exact ⟨fun h => absurd h (by simp), fun _ => rfl, fun _ => rfl, fun _ => rfl,
      fun _ _ => rfl, fun _ _ => rfl, fun _ _ => rfl⟩

theorem spec_c10_witness :
    (((make_move c10Game 0 1 2).1 = true →
      (make_move c10Game 0 1 2).2 =
        { c10Game with player_grid := setCell c10Game.player_grid 0 1 2 } ∧
      (∀ r' c', ¬(r' = 0 ∧ c' = 1) →
        getCell (make_move c10Game 0 1 2).2.player_grid r' c' =
          getCell c10Game.player_grid r' c') ∧
      (boardWF c10Game.size c10Game.player_grid →
        getCell (make_move c10Game 0 1 2).2.player_grid 0 1 = 2) ∧
      (make_move c10Game 0 1 2).2.solution_grid = c10Game.solution_grid ∧
      (make_move c10Game 0 1 2).2.row_constraints = c10Game.row_constraints ∧
      (make_move c10Game 0 1 2).2.col_constraints = c10Game.col_constraints ∧
      (make_move c10Game 0 1 2).2.trees = c10Game.trees ∧
      (make_move c10Game 0 1 2).2.size = c10Game.size) ∧
    ((make_move c10Game 0 1 2).1 = false → (make_move c10Game 0 1 2).2 = c10Game) ∧
    (¬((0:Nat) < c10Game.size ∧ (1:Nat) < c10Game.size) →
      (make_move c10Game 0 1 2).1 = false) ∧
    (getCell c10Game.player_grid 0 1 = TREE →
      (make_move c10Game 0 1 2).1 = false) ∧
    ((2:Nat) = TENT → hasAdjacentTent c10Game 0 1 = true →
      (make_move c10Game 0 1 2).1 = false) ∧
    ((2:Nat) = TENT →
      c10Game.row_constraints.getD 0 0 <
        (c10Game.player_grid.getD 0 []).countP (fun x => x == TENT) + 1 →
      (make_move c10Game 0 1 2).1 = false) ∧
    ((2:Nat) = TENT →
      c10Game.col_constraints.getD 1 0 < colTentCount c10Game 1 + 1 →
      (make_move c10Game 0 1 2).1 = false)) :=
  spec_c10_make_move c10Game 0 1 2

/-- C5, counterexample: the unknown-cell graph of `c5Game` has two
components; while processing the first component (which owns only
(0,0)), the DP on shared row 0 commits the EMPTY cell (0,4) even
though (0,4) belongs to the second component. -/
theorem spec_c5_counterexample :
    (find_connected_components (build_constraint_graph c5Game)).length = 2 ∧
    (find_connected_components (build_constraint_graph c5Game)).getD 0 []
      = [(0, 0)] ∧
    (find_connected_components (build_constraint_graph c5Game)).getD 1 []
      = [(0, 4)] ∧
    getCell c5Game.player_grid 0 4 = EMPTY ∧
    ((0, 4) ∉
      (find_connected_components (build_constraint_graph c5Game)).getD 0 []) ∧
    getCell (applyDpToComponent c5Game
      ((find_connected_components (build_constraint_graph c5Game)).getD 0 [])
      ).1.player_grid 0 4 = TENT := by
  decide

/-- C6: on `c6Game`, `solve_with_dnc` reports progress, strictly
decreases the number of EMPTY cells, and leaves no EMPTY cell in rows
0, 2, 4 or in columns 1 and 3. -/
theorem spec_c6_dnc_concrete :
    (solve_with_dnc c6Game).2 = true ∧
    countEmptyCells (solve_with_dnc c6Game).1 < countEmptyCells c6Game ∧
    (rowMajorCells 5).all
      (fun p =>
        !((p.1 == 0 || p.1 == 2 || p.1 == 4 || p.2 == 1 || p.2 == 3) &&
          (getCell (solve_with_dnc c6Game).1.player_grid p.1 p.2 == EMPTY)))
      = true := by
  refine ⟨by decide, by decide, by decide⟩

theorem getCell_setCell_self_or (b : Board) (r c v : Nat) :
    getCell (setCell b r c v) r c = v ∨
    getCell (setCell b r c v) r c = getCell b r c := by
  by_cases hr : r < b.length
  · by_cases hc : c < (b.getD r []).length
    · exact Or.inl (getCell_setCell_self b r c v hr hc)
    · right
      unfold getCell setCell
      rw [getD_set_self_lt _ _ _ _ hr,
        List.set_eq_of_length_le (Nat.le_of_not_lt hc)]
  · right
    unfold setCell
    rw [List.set_eq_of_length_le (Nat.le_of_not_lt hr)]

theorem find_forced_values (configs : List (List Nat)) :
    ∀ iv ∈ find_forced_moves configs, iv.2 = TENT ∨ iv.2 = GRASS := by
  intro iv hm
  match configs, hm with
  | cfg₀ :: rest, hm =>
    simp only [find_forced_moves, List.mem_filterMap, List.mem_range] at hm
    obtain ⟨a, _, hbody⟩ := hm
    by_cases h1 : ((cfg₀ :: rest).all
        fun cfg => cfg.getD a 0 == cfg₀.getD a 0) = true
    · rw [if_pos h1] at hbody
      by_cases h2 : (cfg₀.getD a 0 == TENT || cfg₀.getD a 0 == GRASS) = true
      · rw [if_pos h2] at hbody
        injection hbody with hb
        subst hb
        rcases Bool.or_eq_true_iff.mp h2 with h | h
        · exact Or.inl (eq_of_beq h)
        · exact Or.inr (eq_of_beq h)
      · rw [if_neg h2] at hbody
        exact absurd hbody (by simp)
    · rw [if_neg h1] at hbody
      exact absurd hbody (by simp)

theorem forcedWriteRow_fold_frame (r : Nat) :
    ∀ (items : List (Nat × Nat)) (g : TGame) (flag : Bool) (r' c' : Nat),
      (∀ iv ∈ items, iv.2 = TENT ∨ iv.2 = GRASS) →
      getCell (items.foldl (forcedWriteRow r) (g, flag)).1.player_grid r' c' ≠
        getCell g.player_grid r' c' →
      r' = r ∧ getCell g.player_grid r' c' = EMPTY ∧
      (getCell (items.foldl (forcedWriteRow r) (g, flag)).1.player_grid r' c'
          = TENT ∨
       getCell (items.foldl (forcedWriteRow r) (g, flag)).1.player_grid r' c'
          = GRASS) := by
  intro items
  induction items with
  | nil => intro g flag r' c' _ hch; exact absurd rfl hch
  | cons cv rest ih =>
    intro g flag r' c' hvals hch
    rw [List.foldl_cons] at hch ⊢
    by_cases hcell : (getCell g.player_grid r cv.1 == EMPTY) = true
    · have hacc : forcedWriteRow r (g, flag) cv =
          ({ g with player_grid := setCell g.player_grid r cv.1 cv.2 }, true) := by
        rw [forcedWriteRow, if_pos hcell]
      rw [hacc] at hch ⊢
      set g₁ : TGame :=
        { g with player_grid := setCell g.player_grid r cv.1 cv.2 } with hg₁
      by_cases hmid : getCell (rest.foldl (forcedWriteRow r) (g₁, true)).1.player_grid r' c'
          = getCell g₁.player_grid r' c'
      · -- the change came from this single write
        rw [hmid] at hch ⊢
        by_cases hpos : r' = r ∧ c' = cv.1
        · obtain ⟨hr, hc⟩ := hpos
          subst hr; subst hc
          refine ⟨rfl, eq_of_beq hcell, ?_⟩
          rcases getCell_setCell_self_or g.player_grid r' cv.1 cv.2 with h | h
          · rw [hg₁] at hch ⊢
            rw [h] at hch ⊢
            exact hvals cv (by simp)
          · rw [hg₁] at hch
            exact absurd h hch
        · rw [hg₁] at hch
          exact absurd (getCell_setCell_ne _ _ _ _ _ _ hpos) hch
      · -- the change came from the rest of the fold
        have hrec := ih g₁ true r' c'
          (fun iv hiv => hvals iv (by simp [hiv])) hmid
        refine ⟨hrec.1, ?_, hrec.2.2⟩
        by_cases hone : getCell g₁.player_grid r' c' = getCell g.player_grid r' c'
        · rw [← hone]; exact hrec.2.1
        · -- the single write already changed this cell to TENT/GRASS,
          -- contradicting that the rest of the fold saw it EMPTY
          by_cases hpos : r' = r ∧ c' = cv.1
          · obtain ⟨hr, hc⟩ := hpos
            subst hr; subst hc
            rcases getCell_setCell_self_or g.player_grid r' cv.1 cv.2 with h | h
            · have hv2 := hvals cv (by simp)
              have hE := hrec.2.1
              rw [hg₁] at hE
              rw [h] at hE
              rcases hv2 with hv2 | hv2 <;> rw [hv2] at hE <;>
                simp [TENT, GRASS, EMPTY] at hE
            · rw [hg₁] at hone
              exact absurd h hone
          · rw [hg₁] at hone
            exact absurd (getCell_setCell_ne _ _ _ _ _ _ hpos) hone
    · have hacc : forcedWriteRow r (g, flag) cv = (g, flag) := by
        rw [forcedWriteRow, if_neg hcell]
      rw [hacc] at hch ⊢
      exact ih g flag r' c' (fun iv hiv => hvals iv (by simp [hiv])) hch

theorem forcedWriteCol_fold_frame (c : Nat) :
    ∀ (items : List (Nat × Nat)) (g : TGame) (flag : Bool) (r' c' : Nat),
      (∀ iv ∈ items, iv.2 = TENT ∨ iv.2 = GRASS) →
      getCell (items.foldl (forcedWriteCol c) (g, flag)).1.player_grid r' c' ≠
        getCell g.player_grid r' c' →
      c' = c ∧ getCell g.player_grid r' c' = EMPTY ∧
      (getCell (items.foldl (forcedWriteCol c) (g, flag)).1.player_grid r' c'
          = TENT ∨
       getCell (items.foldl (forcedWriteCol c) (g, flag)).1.player_grid r' c'
          = GRASS) := by
  intro items
  induction items with
  | nil => intro g flag r' c' _ hch; exact absurd rfl hch
  | cons rv rest ih =>
    intro g flag r' c' hvals hch
    rw [List.foldl_cons] at hch ⊢
    by_cases hcell : (getCell g.player_grid rv.1 c == EMPTY) = true
    · have hacc : forcedWriteCol c (g, flag) rv =
          ({ g with player_grid := setCell g.player_grid rv.1 c rv.2 }, true) := by
        rw [forcedWriteCol, if_pos hcell]
      rw [hacc] at hch ⊢
      set g₁ : TGame :=
        { g with player_grid := setCell g.player_grid rv.1 c rv.2 } with hg₁
      by_cases hmid : getCell (rest.foldl (forcedWriteCol c) (g₁, true)).1.player_grid r' c'
          = getCell g₁.player_grid r' c'
      · rw [hmid] at hch ⊢
        by_cases hpos : r' = rv.1 ∧ c' = c
        · obtain ⟨hr, hc⟩ := hpos
          subst hr; subst hc
          refine ⟨rfl, eq_of_beq hcell, ?_⟩
          rcases getCell_setCell_self_or g.player_grid rv.1 c' rv.2 with h | h
          · rw [hg₁] at hch ⊢
            rw [h] at hch ⊢
            exact hvals rv (by simp)
          · rw [hg₁] at hch
            exact absurd h hch
        · rw [hg₁] at hch
          exact absurd (getCell_setCell_ne _ _ _ _ _ _ hpos) hch
      · have hrec := ih g₁ true r' c'
          (fun iv hiv => hvals iv (by simp [hiv])) hmid
        refine ⟨hrec.1, ?_, hrec.2.2⟩
        by_cases hone : getCell g₁.player_grid r' c' = getCell g.player_grid r' c'
        · rw [← hone]; exact hrec.2.1
        · by_cases hpos : r' = rv.1 ∧ c' = c
          · obtain ⟨hr, hc⟩ := hpos
            subst hr; subst hc
            rcases getCell_setCell_self_or g.player_grid rv.1 c' rv.2 with h | h
            · have hv2 := hvals rv (by simp)
              have hE := hrec.2.1
              rw [hg₁] at hE
              rw [h] at hE
              rcases hv2 with hv2 | hv2 <;> rw [hv2] at hE <;>
                simp [TENT, GRASS, EMPTY] at hE
            · rw [hg₁] at hone
              exact absurd h hone
          · rw [hg₁] at hone
            exact absurd (getCell_setCell_ne _ _ _ _ _ _ hpos) hone
    · have hacc : forcedWriteCol c (g, flag) rv = (g, flag) := by
        rw [forcedWriteCol, if_neg hcell]
      rw [hacc] at hch ⊢
      exact ih g flag r' c' (fun iv hiv => hvals iv (by simp [hiv])) hch

theorem applyForcedRow_frame (g : TGame) (r r' c' : Nat)
    (hch : getCell (applyForcedRow g r).1.player_grid r' c' ≠
      getCell g.player_grid r' c') :
    r' = r ∧ getCell g.player_grid r' c' = EMPTY ∧
    (getCell (applyForcedRow g r).1.player_grid r' c' = TENT ∨
     getCell (applyForcedRow g r).1.player_grid r' c' = GRASS) := by
  rw [applyForcedRow] at hch ⊢
  set configs := solve_line_dp g.size (g.row_constraints.getD r 0)
    (g.player_grid.getD r [])
    ((List.range g.size).filter
      (fun c => (g.player_grid.getD r []).getD c 0 == TENT ||
        (g.player_grid.getD r []).getD c 0 == GRASS)) with hcfg
  by_cases hemp : configs.isEmpty = true
  · rw [if_pos hemp] at hch
    exact absurd rfl hch
  · rw [if_neg hemp] at hch ⊢
    exact forcedWriteRow_fold_frame r (find_forced_moves configs) g false r' c'
      (find_forced_values configs) hch

theorem applyForcedCol_frame (g : TGame) (c r' c' : Nat)
    (hch : getCell (applyForcedCol g c).1.player_grid r' c' ≠
      getCell g.player_grid r' c') :
    c' = c ∧ getCell g.player_grid r' c' = EMPTY ∧
    (getCell (applyForcedCol g c).1.player_grid r' c' = TENT ∨
     getCell (applyForcedCol g c).1.player_grid r' c' = GRASS) := by
  rw [applyForcedCol] at hch ⊢
  set configs := solve_line_dp g.size (g.col_constraints.getD c 0)
    ((List.range g.size).map (fun r => getCell g.player_grid r c))
    ((List.range g.size).filter
      (fun r => ((List.range g.size).map
          (fun r => getCell g.player_grid r c)).getD r 0 == TENT ||
        ((List.range g.size).map
          (fun r => getCell g.player_grid r c)).getD r 0 == GRASS)) with hcfg
  by_cases hemp : configs.isEmpty = true
  · rw [if_pos hemp] at hch
    exact absurd rfl hch
  · rw [if_neg hemp] at hch ⊢
    exact forcedWriteCol_fold_frame c (find_forced_moves configs) g false r' c'
      (find_forced_values configs) hch

theorem dpRowFold_frame :
    ∀ (rows : List Nat) (g : TGame) (flag : Bool) (r' c' : Nat),
      getCell (rows.foldl dpRowStep (g, flag)).1.player_grid r' c' ≠
        getCell g.player_grid r' c' →
      r' ∈ rows ∧ getCell g.player_grid r' c' = EMPTY ∧
      (getCell (rows.foldl dpRowStep (g, flag)).1.player_grid r' c' = TENT ∨
       getCell (rows.foldl dpRowStep (g, flag)).1.player_grid r' c' = GRASS) := by
  intro rows
  induction rows with
  | nil => intro g flag r' c' hch; exact absurd rfl hch
  | cons r rest ih =>
    intro g flag r' c' hch
    rw [List.foldl_cons] at hch ⊢
    have hstep : dpRowStep (g, flag) r =
        ((applyForcedRow g r).1, flag || (applyForcedRow g r).2) := rfl
    rw [hstep] at hch ⊢
    set g₁ := (applyForcedRow g r).1 with hg₁
    by_cases hmid : getCell (rest.foldl dpRowStep
        (g₁, flag || (applyForcedRow g r).2)).1.player_grid r' c'
        = getCell g₁.player_grid r' c'
    · rw [hmid] at hch ⊢
      have hfr := applyForcedRow_frame g r r' c' hch
      exact ⟨by simp [hfr.1], hfr.2.1, hfr.2.2⟩
    · have hrec := ih g₁ (flag || (applyForcedRow g r).2) r' c' hmid
      refine ⟨by simp [hrec.1], ?_, hrec.2.2⟩
      by_cases hone : getCell g₁.player_grid r' c' = getCell g.player_grid r' c'
      · rw [← hone]; exact hrec.2.1
      · have hfr := applyForcedRow_frame g r r' c' hone
        have hE := hrec.2.1
        rcases hfr.2.2 with h | h <;> rw [h] at hE <;>
          simp [TENT, GRASS, EMPTY] at hE

theorem dpColFold_frame :
    ∀ (cols : List Nat) (g : TGame) (flag : Bool) (r' c' : Nat),
      getCell (cols.foldl dpColStep (g, flag)).1.player_grid r' c' ≠
        getCell g.player_grid r' c' →
      c' ∈ cols ∧ getCell g.player_grid r' c' = EMPTY ∧
      (getCell (cols.foldl dpColStep (g, flag)).1.player_grid r' c' = TENT ∨
       getCell (cols.foldl dpColStep (g, flag)).1.player_grid r' c' = GRASS) := by
  intro cols
  induction cols with
  | nil => intro g flag r' c' hch; exact absurd rfl hch
  | cons cc rest ih =>
    intro g flag r' c' hch
    rw [List.foldl_cons] at hch ⊢
    have hstep : dpColStep (g, flag) cc =
        ((applyForcedCol g cc).1, flag || (applyForcedCol g cc).2) := rfl
    rw [hstep] at hch ⊢
    set g₁ := (applyForcedCol g cc).1 with hg₁
    by_cases hmid : getCell (rest.foldl dpColStep
        (g₁, flag || (applyForcedCol g cc).2)).1.player_grid r' c'
        = getCell g₁.player_grid r' c'
    · rw [hmid] at hch ⊢
      have hfr := applyForcedCol_frame g cc r' c' hch
      exact ⟨by simp [hfr.1], hfr.2.1, hfr.2.2⟩
    · have hrec := ih g₁ (flag || (applyForcedCol g cc).2) r' c' hmid
      refine ⟨by simp [hrec.1], ?_, hrec.2.2⟩
      by_cases hone : getCell g₁.player_grid r' c' = getCell g.player_grid r' c'
      · rw [← hone]; exact hrec.2.1
      · have hfr := applyForcedCol_frame g cc r' c' hone
        have hE := hrec.2.1
        rcases hfr.2.2 with h | h <;> rw [h] at hE <;>
          simp [TENT, GRASS, EMPTY] at hE

theorem applyRowsThenCols_frame (g : TGame) (rows cols : List Nat)
    (r' c' : Nat)
    (hch : getCell (applyRowsThenCols g rows cols).1.player_grid r' c' ≠
      getCell g.player_grid r' c') :
    (r' ∈ rows ∨ c' ∈ cols) ∧ getCell g.player_grid r' c' = EMPTY ∧
    (getCell (applyRowsThenCols g rows cols).1.player_grid r' c' = TENT ∨
     getCell (applyRowsThenCols g rows cols).1.player_grid r' c' = GRASS) := by
  rw [applyRowsThenCols] at hch ⊢
  set mid := rows.foldl dpRowStep (g, false) with hmid0
  have hpair : mid = (mid.1, mid.2) := rfl
  by_cases hmid : getCell (cols.foldl dpColStep mid).1.player_grid r' c'
      = getCell mid.1.player_grid r' c'
  · rw [hmid] at hch ⊢
    have hfr := dpRowFold_frame rows g false r' c' hch
    exact ⟨Or.inl hfr.1, hfr.2.1, hfr.2.2⟩
  · rw [hpair] at hmid
    have hrec := dpColFold_frame cols mid.1 mid.2 r' c' hmid
    rw [← hpair] at hrec
    refine ⟨Or.inr hrec.1, ?_, hrec.2.2⟩
    by_cases hone : getCell mid.1.player_grid r' c' = getCell g.player_grid r' c'
    · rw [← hone]; exact hrec.2.1
    · have hfr := dpRowFold_frame rows g false r' c' hone
      have hE := hrec.2.1
      rcases hfr.2.2 with h | h <;> rw [h] at hE <;>
        simp [TENT, GRASS, EMPTY] at hE

/-- C5, amended: while processing one component, `solve_with_dnc`
commits only EMPTY cells, only to TENT or GRASS, and only in rows or
columns touched by that component; it may however write EMPTY cells
of a shared row or column that belong to a different component. -/
theorem spec_c5_component_frame (g : TGame) (comp : List (Nat × Nat))
    (r c : Nat)
    (hch : getCell (applyDpToComponent g comp).1.player_grid r c ≠
      getCell g.player_grid r c) :
    ((∃ p ∈ comp, p.1 = r) ∨ (∃ p ∈ comp, p.2 = c)) ∧
    getCell g.player_grid r c = EMPTY ∧
    (getCell (applyDpToComponent g comp).1.player_grid r c = TENT ∨
     getCell (applyDpToComponent g comp).1.player_grid r c = GRASS) := by
  rw [applyDpToComponent] at hch ⊢
  have hfr := applyRowsThenCols_frame g (compRows g comp) (compCols g comp)
    r c hch
  refine ⟨?_, hfr.2.1, hfr.2.2⟩
  rcases hfr.1 with h | h
  · left
    have hm := List.mem_filter.mp h
    rcases List.any_eq_true.mp hm.2 with ⟨p, hp, hpr⟩
    exact ⟨p, hp, eq_of_beq hpr⟩
  · right
    have hm := List.mem_filter.mp h
    rcases List.any_eq_true.mp hm.2 with ⟨p, hp, hpr⟩
    exact ⟨p, hp, eq_of_beq hpr⟩

theorem spec_c5_amended_witness :
    ((∃ p ∈ [((0 : Nat), (0 : Nat))], p.1 = 0) ∨
      (∃ p ∈ [((0 : Nat), (0 : Nat))], p.2 = 4)) ∧
    getCell c5Game.player_grid 0 4 = EMPTY ∧
    (getCell (applyDpToComponent c5Game [(0, 0)]).1.player_grid 0 4 = TENT ∨
     getCell (applyDpToComponent c5Game [(0, 0)]).1.player_grid 0 4 = GRASS) :=
  spec_c5_component_frame c5Game [(0, 0)] 0 4 (by decide)

theorem getD_default_of_le {α : Type} (l : List α) (i : Nat) (d : α)
    (h : l.length ≤ i) : l.getD i d = d := by
  simp [List.getD_eq_getElem?_getD, List.getElem?_eq_none h]

theorem getCell_setCell_empty (b : Board) (r c : Nat) :
    getCell (setCell b r c EMPTY) r c = EMPTY := by
  by_cases hr : r < b.length
  · by_cases hc : c < (b.getD r []).length
    · exact getCell_setCell_self b r c EMPTY hr hc
    · unfold getCell setCell
      rw [getD_set_self_lt _ _ _ _ hr,
        List.set_eq_of_length_le (Nat.le_of_not_lt hc)]
      exact getD_default_of_le _ _ _ (Nat.le_of_not_lt hc)
  · unfold getCell setCell
    rw [List.set_eq_of_length_le (Nat.le_of_not_lt hr)]
    rw [getD_default_of_le _ _ _ (Nat.le_of_not_lt hr)]
    rfl

theorem markAux_length : ∀ (ps : List (Nat × Nat)) (b : Board),
    (markAux ps b).1.length = b.length := by
  intro ps
  induction ps with
  | nil => intro b; rfl
  | cons p ps ih =>
    intro b
    rw [markAux]
    split_ifs with h
    · rw [ih, setCell_length]
    · exact ih b

theorem markAux_row_len : ∀ (ps : List (Nat × Nat)) (b : Board) (r : Nat),
    ((markAux ps b).1.getD r []).length = (b.getD r []).length := by
  intro ps
  induction ps with
  | nil => intro b r; rfl
  | cons p ps ih =>
    intro b r
    rw [markAux]
    split_ifs with h
    · rw [ih, setCell_row_length]
    · exact ih b r

theorem restore_length : ∀ (g : List (Nat × Nat)) (b : Board),
    (restore_neighbors b g).length = b.length := by
  intro g
  induction g with
  | nil => intro b; rfl
  | cons p g ih =>
    intro b
    rw [restore_neighbors, List.foldl_cons]
    rw [show (List.foldl (fun b p => setCell b p.1 p.2 EMPTY)
        (setCell b p.1 p.2 EMPTY) g) =
      restore_neighbors (setCell b p.1 p.2 EMPTY) g from rfl]
    rw [ih, setCell_length]

theorem restore_row_len : ∀ (g : List (Nat × Nat)) (b : Board) (r : Nat),
    ((restore_neighbors b g).getD r []).length = (b.getD r []).length := by
  intro g
  induction g with
  | nil => intro b r; rfl
  | cons p g ih =>
    intro b r
    rw [restore_neighbors, List.foldl_cons]
    rw [show (List.foldl (fun b p => setCell b p.1 p.2 EMPTY)
        (setCell b p.1 p.2 EMPTY) g) =
      restore_neighbors (setCell b p.1 p.2 EMPTY) g from rfl]
    rw [ih, setCell_row_length]

theorem markAux_mem_empty : ∀ (ps : List (Nat × Nat)) (b : Board)
    (q : Nat × Nat), q ∈ (markAux ps b).2 → getCell b q.1 q.2 = EMPTY := by
  intro ps
  induction ps with
  | nil => intro b q h; cases h
  | cons p ps ih =>
    intro b q hq
    rw [markAux] at hq
    split_ifs at hq with h
    · rcases List.mem_cons.mp hq with he | hm
      · subst he; exact eq_of_beq h
      · have hE := ih (setCell b p.1 p.2 GRASS) q hm
        by_cases hpq : q.1 = p.1 ∧ q.2 = p.2
        · obtain ⟨h1, h2⟩ := hpq
          rw [h1, h2]
          exact eq_of_beq h
        · rw [getCell_setCell_ne _ _ _ _ _ _ hpq] at hE
          exact hE
    · exact ih b q hq

theorem markAux_not_mem : ∀ (ps : List (Nat × Nat)) (b : Board)
    (q : Nat × Nat), q ∉ (markAux ps b).2 →
    getCell (markAux ps b).1 q.1 q.2 = getCell b q.1 q.2 := by
  intro ps
  induction ps with
  | nil => intro b q _; rfl
  | cons p ps ih =>
    intro b q hq
    rw [markAux] at hq ⊢
    split_ifs at hq ⊢ with h
    · have hqp : q ≠ p := fun he => hq (by simp [he])
      have hqs : q ∉ (markAux ps (setCell b p.1 p.2 GRASS)).2 :=
        fun hm => hq (by simp [hm])
      rw [ih _ q hqs]
      apply getCell_setCell_ne
      intro hpos
      exact hqp (Prod.ext hpos.1 hpos.2)
    · exact ih b q hq

theorem restore_not_mem : ∀ (g : List (Nat × Nat)) (b : Board)
    (q : Nat × Nat), q ∉ g →
    getCell (restore_neighbors b g) q.1 q.2 = getCell b q.1 q.2 := by
  intro g
  induction g with
  | nil => intro b q _; rfl
  | cons p g ih =>
    intro b q hq
    rw [restore_neighbors, List.foldl_cons]
    rw [show (List.foldl (fun b p => setCell b p.1 p.2 EMPTY)
        (setCell b p.1 p.2 EMPTY) g) =
      restore_neighbors (setCell b p.1 p.2 EMPTY) g from rfl]
    have hqg : q ∉ g := fun hm => hq (by simp [hm])
    rw [ih _ q hqg]
    apply getCell_setCell_ne
    intro hpos
    exact hq (by simp [Prod.ext hpos.1 hpos.2])

theorem restore_mem : ∀ (g : List (Nat × Nat)) (b : Board)
    (q : Nat × Nat), q ∈ g →
    getCell (restore_neighbors b g) q.1 q.2 = EMPTY := by
  intro g
  induction g with
  | nil => intro b q h; cases h
  | cons p g ih =>
    intro b q hq
    rw [restore_neighbors, List.foldl_cons]
    rw [show (List.foldl (fun b p => setCell b p.1 p.2 EMPTY)
        (setCell b p.1 p.2 EMPTY) g) =
      restore_neighbors (setCell b p.1 p.2 EMPTY) g from rfl]
    by_cases hm : q ∈ g
    · exact ih _ q hm
    · have he : q = p := by
        rcases List.mem_cons.mp hq with h | h
        · exact h
        · exact absurd h hm
      subst he
      rw [restore_not_mem g _ q hm]
      exact getCell_setCell_empty b q.1 q.2

theorem restore_markAux (ps : List (Nat × Nat)) (b : Board) :
    restore_neighbors (markAux ps b).1 (markAux ps b).2 = b := by
  apply board_ext
  · rw [restore_length, markAux_length]
  · intro r
    rw [restore_row_len, markAux_row_len]
  · intro r c
    by_cases hq : (r, c) ∈ (markAux ps b).2
    · rw [restore_mem _ _ _ hq]
      exact (markAux_mem_empty ps b _ hq).symm
    · rw [restore_not_mem _ _ _ hq]
      exact markAux_not_mem ps b _ hq

theorem setCell_set_back (b : Board) (r c v : Nat)
    (h : getCell b r c = EMPTY) :
    setCell (setCell b r c v) r c EMPTY = b := by
  apply board_ext
  · rw [setCell_length, setCell_length]
  · intro r'
    rw [setCell_row_length, setCell_row_length]
  · intro r' c'
    by_cases hpos : r' = r ∧ c' = c
    · obtain ⟨h1, h2⟩ := hpos
      subst h1; subst h2
      rw [getCell_setCell_empty, h]
    · rw [getCell_setCell_ne _ _ _ _ _ _ hpos,
        getCell_setCell_ne _ _ _ _ _ _ hpos]

theorem set_dec_inc (l : List Int) (i : Nat) :
    ((l.set i (l.getD i 0 - 1)).set i
      ((l.set i (l.getD i 0 - 1)).getD i 0 + 1)) = l := by
  by_cases h : i < l.length
  · rw [getD_set_self_lt _ _ _ _ h, List.set_set]
    rw [show l.getD i 0 - 1 + 1 = l.getD i 0 by ring]
    exact set_getD_id l i 0
  · rw [List.set_eq_of_length_le (Nat.le_of_not_lt h),
      List.set_eq_of_length_le (Nat.le_of_not_lt h)]

theorem tryNeighborsAux_false (size : Nat)
    (recur : Board → List Int → List Int → Bool × Board × List Int × List Int)
    (hrecur : ∀ b rr cr, (recur b rr cr).1 = false →
      (recur b rr cr).2 = (b, rr, cr)) :
    ∀ (ns : List (Nat × Nat)) (b : Board) (rr cr : List Int),
      (tryNeighborsAux size recur ns b rr cr).1 = false →
      (tryNeighborsAux size recur ns b rr cr).2 = (b, rr, cr) := by
  intro ns
  induction ns with
  | nil => intro b rr cr _; rfl
  | cons p rest ih =>
    intro b rr cr hf
    rw [tryNeighborsAux] at hf ⊢
    split_ifs at hf ⊢ with h1 h2 h3
    case pos =>
      -- guards passed: the tent branch
      simp only at hf ⊢
      set b₂ := setCell b p.1 p.2 TENT with hb₂
      set rr₂ := rr.set p.1 (rr.getD p.1 0 - 1) with hrr₂
      set cr₂ := cr.set p.2 (cr.getD p.2 0 - 1) with hcr₂
      set mk := mark_neighbors_grass size b₂ p.1 p.2 with hmk
      set res := recur mk.1 rr₂ cr₂ with hres
      by_cases hr1 : res.1 = true
      · rw [if_pos hr1] at hf
        rw [hf] at hr1
        exact absurd hr1 (by simp)
      · have hr1' : res.1 = false := by simpa using hr1
        rw [if_neg hr1] at hf ⊢
        have hst := hrecur mk.1 rr₂ cr₂ hr1'
        have hb3 : res.2.1 = mk.1 := by rw [hst]
        have hrr3 : res.2.2.1 = rr₂ := by rw [hst]
        have hcr3 : res.2.2.2 = cr₂ := by rw [hst]
        rw [hb3, hrr3, hcr3] at hf ⊢
        have hboard : setCell (restore_neighbors mk.1 mk.2) p.1 p.2 EMPTY = b := by
          rw [hmk, mark_neighbors_grass, restore_markAux, hb₂]
          exact setCell_set_back b p.1 p.2 TENT (eq_of_beq h1)
        have hrr5 : rr₂.set p.1 (rr₂.getD p.1 0 + 1) = rr := by
          rw [hrr₂]; exact set_dec_inc rr p.1
        have hcr5 : cr₂.set p.2 (cr₂.getD p.2 0 + 1) = cr := by
          rw [hcr₂]; exact set_dec_inc cr p.2
        rw [hboard, hrr5, hcr5] at hf ⊢
        exact ih b rr cr hf
    all_goals exact ih b rr cr hf

theorem solveRec_false (size : Nat) :
    ∀ (fuel : Nat) (trees : List (Nat × Nat)) (b : Board) (rr cr : List Int),
      (solveRec size fuel trees b rr cr).1 = false →
      (solveRec size fuel trees b rr cr).2 = (b, rr, cr) := by
  intro fuel
  induction fuel with
  | zero =>
    intro trees b rr cr _
    match trees with
    | [] => rfl
    | t :: ts =>
      rw [solveRec]
      cases hsel : selectMRV size b rr cr (t :: ts) with
      | none => rfl
      | some best => rfl
  | succ fuel ih =>
    intro trees b rr cr hf
    match trees, hf with
    | [], hf => rfl
    | t :: ts, hf =>
      rw [solveRec] at hf ⊢
      cases hsel : selectMRV size b rr cr (t :: ts) with
      | none => rfl
      | some best =>
        rw [hsel] at hf
        simp only at hf ⊢
        exact tryNeighborsAux_false size _
          (fun b' rr' cr' => ih ((t :: ts).filter (fun x => x != best)) b' rr' cr')
          (orthNeighbors size best.1 best.2) b rr cr hf

/-- C7: whenever the backtracking search returns False, the board and
both budget vectors are exactly equal to their values at entry —
every grassed neighbour is restored to EMPTY, the tried tent cell is
restored to EMPTY, and both decremented budgets are re-incremented. -/
theorem spec_c7_backtrack_restores (size fuel : Nat)
    (trees : List (Nat × Nat)) (b : Board) (rr cr : List Int)
    (h : (solveRec size fuel trees b rr cr).1 = false) :
    (solveRec size fuel trees b rr cr).2 = (b, rr, cr) :=
  solveRec_false size fuel trees b rr cr h

theorem spec_c7_witness :
    (solveRec 1 1 [(0, 0)] [[1]] [0] [0]).1 = false ∧
    (solveRec 1 1 [(0, 0)] [[1]] [0] [0]).2 = ([[1]], [0], [0]) :=
  ⟨by decide, spec_c7_backtrack_restores 1 1 [(0, 0)] [[1]] [0] [0] (by decide)⟩

theorem countP_congr_list (l : List Nat) (p q : Nat → Bool)
    (h : ∀ a ∈ l, p a = q a) : l.countP p = l.countP q := by
  induction l with
  | nil => rfl
  | cons x xs ih =>
    rw [List.countP_cons, List.countP_cons, h x (by simp),
      ih (fun a ha => h a (by simp [ha]))]

theorem countP_flip_one (l : List Nat) (f g : Nat → Bool) (x : Nat)
    (hnd : l.Nodup) (hx : x ∈ l)
    (hfg : ∀ y ∈ l, y ≠ x → f y = g y)
    (hfx : f x = false) (hgx : g x = true) :
    l.countP g = l.countP f + 1 := by
  induction l with
  | nil => cases hx
  | cons a l' ih =>
    rw [List.countP_cons, List.countP_cons]
    rcases List.mem_cons.mp hx with he | hm
    · subst he
      have hnotin : x ∉ l' := (List.nodup_cons.mp hnd).1
      have heq : l'.countP f = l'.countP g :=
        countP_congr_list l' f g
          (fun y hy => hfg y (by simp [hy]) (fun hh => hnotin (hh ▸ hy)))
      rw [hfx, hgx, heq,
        show (if false = true then 1 else 0) = 0 from rfl,
        show (if true = true then 1 else 0) = 1 from rfl]
    · have hax : a ≠ x := by
        intro hh
        exact (List.nodup_cons.mp hnd).1 (hh ▸ hm)
      have ha : f a = g a := hfg a (by simp) hax
      rw [ih (List.nodup_cons.mp hnd).2 hm
        (fun y hy hyx => hfg y (by simp [hy]) hyx), ha]
      omega

theorem mem_boxCells (size r c : Nat) (q : Nat × Nat) :
    q ∈ boxCells size r c ↔
      (r - 1 ≤ q.1 ∧ q.1 < min size (r + 2) ∧ c - 1 ≤ q.2 ∧
        q.2 < min size (c + 2) ∧ ¬(q.1 = r ∧ q.2 = c)) := by
  rcases q with ⟨a, b'⟩
  simp only [boxCells, rangeFromTo, List.mem_flatMap, List.mem_filterMap,
    List.mem_range'_1]
  constructor
  · rintro ⟨nr, hnr, nc, hnc, hif⟩
    obtain ⟨h1, h2⟩ := hnr
    obtain ⟨h3, h4⟩ := hnc
    split_ifs at hif with hcnd
    have hinj := Option.some.inj hif
    rw [Prod.mk.injEq] at hinj
    obtain ⟨ha, hb⟩ := hinj
    subst ha; subst hb
    exact ⟨h1, by omega, h3, by omega, hcnd⟩
  · rintro ⟨h1, h2, h3, h4, h5⟩
    refine ⟨a, ⟨h1, by omega⟩, b', ⟨⟨h3, by omega⟩, ?_⟩⟩
    rw [if_neg h5]

theorem boxCells_symm (size r c : Nat) (q : Nat × Nat)
    (hr : r < size) (hc : c < size) (hq : q ∈ boxCells size r c) :
    (r, c) ∈ boxCells size q.1 q.2 := by
  rw [mem_boxCells] at hq ⊢
  obtain ⟨h1, h2, h3, h4, h5⟩ := hq
  refine ⟨by omega, by omega, by omega, by omega, ?_⟩
  rintro ⟨ha, hb⟩
  exact h5 ⟨ha.symm, hb.symm⟩

theorem orthNeighbors_bounds (size r c : Nat) :
    ∀ p ∈ orthNeighbors size r c, p.1 < size ∧ p.2 < size := by
  intro p hp
  simp only [orthNeighbors, List.mem_filterMap] at hp
  obtain ⟨d, _, hif⟩ := hp
  split_ifs at hif with h
  have hinj := Option.some.inj hif
  subst hinj
  obtain ⟨ha1, ha2, ha3, ha4⟩ := h
  constructor <;> simp <;> omega

theorem place_preserves_noAdj (size : Nat) (b : Board) (p : Nat × Nat)
    (hna : noAdjacentTents size b)
    (hsafe : is_placement_safe size b p.1 p.2 = true) :
    noAdjacentTents size (setCell b p.1 p.2 TENT) := by
  intro r hr c hc htent q hq
  by_cases hrc : r = p.1 ∧ c = p.2
  · have hqne : ¬(q.1 = p.1 ∧ q.2 = p.2) := by
      have hm := (mem_boxCells size r c q).mp hq
      rw [hrc.1, hrc.2] at hm
      exact hm.2.2.2.2
    rw [getCell_setCell_ne _ _ _ _ _ _ hqne]
    have hq' : q ∈ boxCells size p.1 p.2 := by rw [← hrc.1, ← hrc.2]; exact hq
    have hs := List.all_eq_true.mp hsafe q hq'
    simpa using hs
  · have hold : getCell b r c = TENT := by
      rw [getCell_setCell_ne _ _ _ _ _ _ hrc] at htent
      exact htent
    by_cases hqp : q.1 = p.1 ∧ q.2 = p.2
    · exfalso
      have hq2 : (q.1, q.2) ∈ boxCells size r c := by simpa using hq
      rw [hqp.1, hqp.2] at hq2
      have hsym : (r, c) ∈ boxCells size p.1 p.2 :=
        boxCells_symm size r c (p.1, p.2) hr hc hq2
      have hs := List.all_eq_true.mp hsafe (r, c) hsym
      simp only [Bool.not_eq_true'] at hs
      rw [show getCell b (r, c).1 (r, c).2 = getCell b r c from rfl] at hs
      rw [hold] at hs
      simp at hs
    · rw [getCell_setCell_ne _ _ _ _ _ _ hqp]
      exact hna r hr c hc hold q hq

theorem boardWF_of_shape (size : Nat) (b b' : Board) (hwf : boardWF size b)
    (hlen : b'.length = b.length)
    (hrows : ∀ r, (b'.getD r []).length = (b.getD r []).length) :
    boardWF size b' := by
  constructor
  · rw [hlen, hwf.1]
  · intro row hrow
    obtain ⟨i, hi, he⟩ := List.mem_iff_getElem.mp hrow
    have hlen2 : row.length = (b'.getD i []).length := by
      rw [getD_eq_getElem_of_lt _ _ _ hi, he]
    rw [hlen2, hrows i]
    exact boardWF_row_len hwf i (by rw [← hwf.1, ← hlen]; exact hi)

theorem markAux_tent_iff : ∀ (ps : List (Nat × Nat)) (b : Board)
    (r c : Nat),
    (getCell (markAux ps b).1 r c = TENT ↔ getCell b r c = TENT) := by
  intro ps
  induction ps with
  | nil => intro b r c; exact Iff.rfl
  | cons p ps ih =>
    intro b r c
    rw [markAux]
    split_ifs with h
    · rw [ih (setCell b p.1 p.2 GRASS) r c]
      by_cases hpq : r = p.1 ∧ c = p.2
      · rw [hpq.1, hpq.2]
        have h1 : getCell b p.1 p.2 = EMPTY := eq_of_beq h
        rcases getCell_setCell_self_or b p.1 p.2 GRASS with h2 | h2 <;>
          rw [h2] <;> simp [h1, EMPTY, GRASS, TENT]
      · rw [getCell_setCell_ne _ _ _ _ _ _ hpq]
    · exact ih b r c

theorem noAdj_of_tent_iff (size : Nat) (b b' : Board)
    (hiff : ∀ r c, (getCell b' r c = TENT ↔ getCell b r c = TENT))
    (hna : noAdjacentTents size b) : noAdjacentTents size b' := by
  intro r hr c hc htent q hq
  intro hq2
  exact hna r hr c hc ((hiff r c).mp htent) q hq ((hiff q.1 q.2).mp hq2)

theorem rowTents_of_tent_iff (size : Nat) (b b' : Board)
    (hiff : ∀ r c, (getCell b' r c = TENT ↔ getCell b r c = TENT)) (r : Nat) :
    rowTents size b' r = rowTents size b r := by
  apply countP_congr_list
  intro c _
  have := hiff r c
  by_cases h : getCell b' r c = TENT
  · rw [h, (this.mp h)]
  · have h2 : getCell b r c ≠ TENT := fun hh => h (this.mpr hh)
    simp [h, h2]

theorem colTents_of_tent_iff (size : Nat) (b b' : Board)
    (hiff : ∀ r c, (getCell b' r c = TENT ↔ getCell b r c = TENT)) (c : Nat) :
    colTents size b' c = colTents size b c := by
  apply countP_congr_list
  intro r _
  have := hiff r c
  by_cases h : getCell b' r c = TENT
  · rw [h, (this.mp h)]
  · have h2 : getCell b r c ≠ TENT := fun hh => h (this.mpr hh)
    simp [h, h2]

theorem rowTents_place (size : Nat) (b : Board) (r c : Nat)
    (hwf : boardWF size b) (hr : r < size) (hc : c < size)
    (hempty : getCell b r c = EMPTY) :
    rowTents size (setCell b r c TENT) r = rowTents size b r + 1 := by
  apply countP_flip_one (List.range size)
    (fun c' => getCell b r c' == TENT)
    (fun c' => getCell (setCell b r c TENT) r c' == TENT) c
    (List.nodup_range size) (List.mem_range.mpr hc)
  · intro y _ hy
    rw [getCell_setCell_ne _ _ _ _ _ _ (fun hh => hy hh.2)]
  · rw [hempty]; rfl
  · rw [getCell_setCell_self b r c TENT (by rw [hwf.1]; exact hr)
      (by rw [boardWF_row_len hwf r hr]; exact hc)]
    rfl

theorem rowTents_place_other (size : Nat) (b : Board) (r c v r' : Nat)
    (hne : r' ≠ r) :
    rowTents size (setCell b r c v) r' = rowTents size b r' := by
  apply countP_congr_list
  intro c' _
  rw [getCell_setCell_ne _ _ _ _ _ _ (fun hh => hne hh.1)]

theorem colTents_place (size : Nat) (b : Board) (r c : Nat)
    (hwf : boardWF size b) (hr : r < size) (hc : c < size)
    (hempty : getCell b r c = EMPTY) :
    colTents size (setCell b r c TENT) c = colTents size b c + 1 := by
  apply countP_flip_one (List.range size)
    (fun r' => getCell b r' c == TENT)
    (fun r' => getCell (setCell b r c TENT) r' c == TENT) r
    (List.nodup_range size) (List.mem_range.mpr hr)
  · intro y _ hy
    rw [getCell_setCell_ne _ _ _ _ _ _ (fun hh => hy hh.1)]
  · rw [hempty]; rfl
  · rw [getCell_setCell_self b r c TENT (by rw [hwf.1]; exact hr)
      (by rw [boardWF_row_len hwf r hr]; exact hc)]
    rfl

theorem colTents_place_other (size : Nat) (b : Board) (r c v c' : Nat)
    (hne : c' ≠ c) :
    colTents size (setCell b r c v) c' = colTents size b c' := by
  apply countP_congr_list
  intro r' _
  rw [getCell_setCell_ne _ _ _ _ _ _ (fun hh => hne hh.2)]

theorem tentInv_of_tent_iff (size : Nat) (rowT colT : List Int)
    (b b' : Board) (rr cr : List Int)
    (hiff : ∀ r c, getCell b' r c = TENT ↔ getCell b r c = TENT)
    (hinv : tentInv size rowT colT b rr cr) :
    tentInv size rowT colT b' rr cr := by
  obtain ⟨hna, h1, h2, hrow, hcol⟩ := hinv
  refine ⟨noAdj_of_tent_iff size b b' hiff hna, h1, h2, ?_, ?_⟩
  · intro r hr
    rw [rowTents_of_tent_iff size b b' hiff r]
    exact hrow r hr
  · intro c hc
    rw [colTents_of_tent_iff size b b' hiff c]
    exact hcol c hc

theorem place_tent_inv (size : Nat) (rowT colT : List Int) (b : Board)
    (rr cr : List Int) (p : Nat × Nat)
    (hwf : boardWF size b) (hinv : tentInv size rowT colT b rr cr)
    (hp1 : p.1 < size) (hp2 : p.2 < size)
    (hempty : getCell b p.1 p.2 = EMPTY)
    (hsafe : is_placement_safe size b p.1 p.2 = true)
    (hrr : 0 < rr.getD p.1 0) (hcr : 0 < cr.getD p.2 0) :
    boardWF size (setCell b p.1 p.2 TENT) ∧
    tentInv size rowT colT (setCell b p.1 p.2 TENT)
      (rr.set p.1 (rr.getD p.1 0 - 1))
      (cr.set p.2 (cr.getD p.2 0 - 1)) := by
  obtain ⟨hna, hlr, hlc, hrow, hcol⟩ := hinv
  refine ⟨boardWF_setCell _ _ _ hwf,
    place_preserves_noAdj size b p hna hsafe, ?_, ?_, ?_, ?_⟩
  · rw [List.length_set]; exact hlr
  · rw [List.length_set]; exact hlc
  · intro r hr
    by_cases hrp : r = p.1
    · subst hrp
      rw [getD_set_self_lt _ _ _ _ (by rw [hlr]; exact hr)]
      rw [rowTents_place size b p.1 p.2 hwf hr hp2 hempty]
      obtain ⟨he, hge⟩ := hrow p.1 hr
      constructor
      · push_cast
        push_cast at he
        omega
      · omega
    · rw [getD_set_ne _ _ _ _ _ hrp]
      rw [rowTents_place_other size b p.1 p.2 TENT r hrp]
      exact hrow r hr
  · intro cc hcc
    by_cases hcp : cc = p.2
    · subst hcp
      rw [getD_set_self_lt _ _ _ _ (by rw [hlc]; exact hcc)]
      rw [colTents_place size b p.1 p.2 hwf hp1 hcc hempty]
      obtain ⟨he, hge⟩ := hcol p.2 hcc
      constructor
      · push_cast
        push_cast at he
        omega
      · omega
    · rw [getD_set_ne _ _ _ _ _ hcp]
      rw [colTents_place_other size b p.1 p.2 TENT cc hcp]
      exact hcol cc hcc

theorem tryNeighborsAux_inv (size : Nat) (rowT colT : List Int)
    (recur : Board → List Int → List Int → Bool × Board × List Int × List Int)
    (hrecF : ∀ b rr cr, (recur b rr cr).1 = false →
      (recur b rr cr).2 = (b, rr, cr))
    (hrecI : ∀ b rr cr, boardWF size b → tentInv size rowT colT b rr cr →
      boardWF size (recur b rr cr).2.1 ∧
      tentInv size rowT colT (recur b rr cr).2.1
        (recur b rr cr).2.2.1 (recur b rr cr).2.2.2) :
    ∀ (ns : List (Nat × Nat)) (b : Board) (rr cr : List Int),
      (∀ p ∈ ns, p.1 < size ∧ p.2 < size) →
      boardWF size b → tentInv size rowT colT b rr cr →
      boardWF size (tryNeighborsAux size recur ns b rr cr).2.1 ∧
      tentInv size rowT colT (tryNeighborsAux size recur ns b rr cr).2.1
        (tryNeighborsAux size recur ns b rr cr).2.2.1
        (tryNeighborsAux size recur ns b rr cr).2.2.2 := by
  intro ns
  induction ns with
  | nil => intro b rr cr _ hwf hinv; exact ⟨hwf, hinv⟩
  | cons p rest ih =>
    intro b rr cr hb hwf hinv
    have hbrest : ∀ q ∈ rest, q.1 < size ∧ q.2 < size :=
      fun q hq => hb q (by simp [hq])
    rw [tryNeighborsAux]
    split_ifs with h1 h2 h3
    case pos =>
      simp only
      set b₂ := setCell b p.1 p.2 TENT with hb₂
      set rr₂ := rr.set p.1 (rr.getD p.1 0 - 1) with hrr₂
      set cr₂ := cr.set p.2 (cr.getD p.2 0 - 1) with hcr₂
      set mk := mark_neighbors_grass size b₂ p.1 p.2 with hmk
      set res := recur mk.1 rr₂ cr₂ with hres
      have hp := hb p (by simp)
      have hplace := place_tent_inv size rowT colT b rr cr p hwf hinv
        hp.1 hp.2 (eq_of_beq h1) h2 h3.1 h3.2
      have hmarkwf : boardWF size mk.1 := by
        rw [hmk, mark_neighbors_grass]
        exact boardWF_of_shape size b₂ _ hplace.1
          (markAux_length _ _) (markAux_row_len _ _)
      have hmarkinv : tentInv size rowT colT mk.1 rr₂ cr₂ := by
        rw [hmk, mark_neighbors_grass]
        exact tentInv_of_tent_iff size rowT colT b₂ _ rr₂ cr₂
          (fun r c => markAux_tent_iff (boxCells size p.1 p.2) b₂ r c)
          hplace.2
      have hresinv := hrecI mk.1 rr₂ cr₂ hmarkwf hmarkinv
      by_cases hr1 : res.1 = true
      · rw [if_pos hr1]
        exact hresinv
      · rw [if_neg hr1]
        have hst := hrecF mk.1 rr₂ cr₂ (by simpa using hr1)
        have hb3 : res.2.1 = mk.1 := by rw [hst]
        have hrr3 : res.2.2.1 = rr₂ := by rw [hst]
        have hcr3 : res.2.2.2 = cr₂ := by rw [hst]
        rw [hb3, hrr3, hcr3]
        have hboard : setCell (restore_neighbors mk.1 mk.2) p.1 p.2 EMPTY = b := by
          rw [hmk, mark_neighbors_grass, restore_markAux, hb₂]
          exact setCell_set_back b p.1 p.2 TENT (eq_of_beq h1)
        have hrr5 : rr₂.set p.1 (rr₂.getD p.1 0 + 1) = rr := by
          rw [hrr₂]; exact set_dec_inc rr p.1
        have hcr5 : cr₂.set p.2 (cr₂.getD p.2 0 + 1) = cr := by
          rw [hcr₂]; exact set_dec_inc cr p.2
        rw [hboard, hrr5, hcr5]
        exact ih b rr cr hbrest hwf hinv
    all_goals exact ih b rr cr hbrest hwf hinv

theorem solveRec_inv (size : Nat) (rowT colT : List Int) :
    ∀ (fuel : Nat) (trees : List (Nat × Nat)) (b : Board) (rr cr : List Int),
      boardWF size b → tentInv size rowT colT b rr cr →
      boardWF size (solveRec size fuel trees b rr cr).2.1 ∧
      tentInv size rowT colT (solveRec size fuel trees b rr cr).2.1
        (solveRec size fuel trees b rr cr).2.2.1
        (solveRec size fuel trees b rr cr).2.2.2 := by
  intro fuel
  induction fuel with
  | zero =>
    intro trees b rr cr hwf hinv
    match trees with
    | [] => exact ⟨hwf, hinv⟩
    | t :: ts =>
      rw [solveRec]
      cases hsel : selectMRV size b rr cr (t :: ts) with
      | none => exact ⟨hwf, hinv⟩
      | some best => exact ⟨hwf, hinv⟩
  | succ fuel ih =>
    intro trees b rr cr hwf hinv
    match trees with
    | [] => exact ⟨hwf, hinv⟩
    | t :: ts =>
      rw [solveRec]
      cases hsel : selectMRV size b rr cr (t :: ts) with
      | none => exact ⟨hwf, hinv⟩
      | some best =>
        simp only
        exact tryNeighborsAux_inv size rowT colT _
          (fun b' rr' cr' =>
            solveRec_false size fuel ((t :: ts).filter (fun x => x != best)) b' rr' cr')
          (fun b' rr' cr' =>
            ih ((t :: ts).filter (fun x => x != best)) b' rr' cr')
          (orthNeighbors size best.1 best.2) b rr cr
          (orthNeighbors_bounds size best.1 best.2) hwf hinv

/-- C8: the backtracking search preserves the Grid invariants — if at
entry no two TENT cells are 8-adjacent and every row/column budget
equals its target minus the current tent count and is non-negative
(so each count is at most its target), the same holds of the state it
returns: tents are only placed on cells passing the 8-neighbour
safety check and only when both budgets are strictly positive. -/
theorem spec_c8_invariants_preserved (size fuel : Nat)
    (trees : List (Nat × Nat)) (b : Board) (rr cr rowT colT : List Int)
    (hwf : boardWF size b) (hinv : tentInv size rowT colT b rr cr) :
    boardWF size (solveRec size fuel trees b rr cr).2.1 ∧
    tentInv size rowT colT (solveRec size fuel trees b rr cr).2.1
      (solveRec size fuel trees b rr cr).2.2.1
      (solveRec size fuel trees b rr cr).2.2.2 :=
  solveRec_inv size rowT colT fuel trees b rr cr hwf hinv

theorem spec_c8_witness :
    boardWF 2 (solveRec 2 1 [(0, 0)] [[1, 0], [0, 0]] [1, 0] [0, 1]).2.1 ∧
    tentInv 2 [1, 0] [0, 1] (solveRec 2 1 [(0, 0)] [[1, 0], [0, 0]] [1, 0] [0, 1]).2.1
      (solveRec 2 1 [(0, 0)] [[1, 0], [0, 0]] [1, 0] [0, 1]).2.2.1
      (solveRec 2 1 [(0, 0)] [[1, 0], [0, 0]] [1, 0] [0, 1]).2.2.2 :=
  spec_c8_invariants_preserved 2 1 [(0, 0)] [[1, 0], [0, 0]] [1, 0] [0, 1]
    [1, 0] [0, 1] (by constructor <;> decide) (by
      refine ⟨?_, by decide, by decide, ?_, ?_⟩
      · intro r hr c hc ht q hq hq2
        interval_cases r <;> interval_cases c <;> revert ht <;> decide
      · decide
      · decide)

/-- C1: the first call to `BackBot.get_best_move` on the 3x3 puzzle
with a single TREE at (0,1) and targets [1,0,0]/[1,0,0] runs the
greedy propagation, finds the puzzle fully resolved, and returns the
TENT move at (0,0) (the first diff cell, so cells_scanned is 1). -/
theorem spec_c1_backbot_first_move :
    back_get_best_move c1Game = some (0, 0, TENT, 1) := by decide

end Tents
